import Mathlib

/-!
Verification of the HTTP content-negotiation, error-response and download-path
layer of wirecloud-fastapi (`src/wirecloud/commons/utils/http.py`).

Strings are modelled as `List Char` (named `Str` below); Python `str` values are
lists of characters and all the relevant operations (split, strip, join, ...)
are translated character by character from the CPython semantics used by the
source.  The deployment platform is POSIX, so `os.path` is `posixpath`.
-/

set_option autoImplicit false
set_option linter.unusedVariables false

/-! # Definitions -/

/-- Python strings, modelled as lists of characters. -/
abbrev Str := List Char

/-- Convert a Lean string literal to the `Str` model. -/
def s (x : String) : Str := x.data

/-- `str.split(sep)` for a single-character separator (CPython semantics:
the result always has one more element than the number of separators;
`"".split(sep) == [""]`). -/
def splitChar (sep : Char) : Str → List Str
  | [] => [[]]
  | c :: rest =>
    if c = sep then [] :: splitChar sep rest
    else
      match splitChar sep rest with
      | [] => [[c]]
      | h :: t => (c :: h) :: t

/-- `str.strip()` restricted to spaces (sufficient for HTTP header fields). -/
def trimStr (x : Str) : Str :=
  ((x.dropWhile (fun c => c = ' ')).reverse.dropWhile (fun c => c = ' ')).reverse

/-- `sep.join(pieces)` for the single-character separator `'/'`. -/
def intercStr : List Str → Str
  | [] => []
  | [x] => x
  | x :: y :: rest => x ++ '/' :: intercStr (y :: rest)

/-- Lookup in an insertion-ordered dictionary (`d[k]` / `d.get(k)`). -/
def assocLookup {α : Type} (k : Str) (d : List (Str × α)) : Option α :=
  match d with
  | [] => none
  | (k', v) :: rest => if k' = k then some v else assocLookup k rest

/-- Setting one key of an insertion-ordered dictionary (`d[k] = v`): an
existing key keeps its position and gets the new value, a fresh key is
appended at the end. -/
def assocSet {α : Type} (d : List (Str × α)) (k : Str) (v : α) : List (Str × α) :=
  match d with
  | [] => [(k, v)]
  | (k', v') :: rest => if k' = k then (k, v) :: rest else (k', v') :: assocSet rest k v

/-- `d.update(upd)`: set every key of `upd`, in order, into `d`. -/
def dictUpdate {α : Type} (d upd : List (Str × α)) : List (Str × α) :=
  upd.foldl (fun acc kv => assocSet acc kv.1 kv.2) d

/-- `list.remove(x)`: drop the first occurrence.  (CPython raises `ValueError`
when `x` is absent; every call in the source removes the fallback `''` key,
which is always present, so the total model returns the list unchanged then.) -/
def listRemoveFirst {α : Type} [DecidableEq α] (x : α) : List α → List α
  | [] => []
  | y :: ys => if y = x then ys else y :: listRemoveFirst x ys

/-- `path.replace('\\', '/')`. -/
def replaceBackslash (x : Str) : Str :=
  x.map (fun c => if c = '\\' then '/' else c)

/-! ## Percent decoding (`urllib.parse.unquote`)

Modelled byte-wise: each well-formed `%hh` escape becomes the character with
that code, a malformed escape is kept literally.  (CPython additionally
UTF-8-decodes consecutive escaped bytes; the path-safety results below hold
for every decoded string, so this refinement is immaterial to them.) -/

def hexDigitVal (c : Char) : Option Nat :=
  if '0' ≤ c ∧ c ≤ '9' then some (c.toNat - '0'.toNat)
  else if 'a' ≤ c ∧ c ≤ 'f' then some (c.toNat - 'a'.toNat + 10)
  else if 'A' ≤ c ∧ c ≤ 'F' then some (c.toNat - 'A'.toNat + 10)
  else none

def percentDecode : Str → Str
  | [] => []
  | '%' :: a :: b :: rest =>
    match hexDigitVal a, hexDigitVal b with
    | some x, some y => Char.ofNat (16 * x + y) :: percentDecode rest
    | _, _ => '%' :: percentDecode (a :: b :: rest)
  | c :: rest => c :: percentDecode rest

/-! ## POSIX path primitives (`posixpath`, which is `os.path` on the
deployment platform) -/

/-- `posixpath.splitdrive`: POSIX paths have no drive, the drive part is
always empty. -/
def posixSplitdrive (p : Str) : Str × Str := ([], p)

/-- Index (from the front) just after the last `'/'`, 0 when there is none:
`p.rfind('/') + 1`. -/
def rfindSlashSucc (p : Str) : Nat :=
  match p with
  | [] => 0
  | c :: rest =>
    let r := rfindSlashSucc rest
    if r > 0 then r + 1 else if c = '/' then 1 else 0

/-- `posixpath.split`: split off the last component; the head keeps its
trailing slash only when it consists solely of slashes. -/
def posixSplit (p : Str) : Str × Str :=
  let i := rfindSlashSucc p
  let head := p.take i
  let tail := p.drop i
  if head ≠ [] ∧ head.any (fun c => c ≠ '/') then
    (head.reverse.dropWhile (fun c => c = '/') |>.reverse, tail)
  else (head, tail)

/-- `posixpath.join` for two operands, the second being the part appended by
the reconstruction loop. -/
def posixJoin (a b : Str) : Str :=
  if b.head? = some '/' then b
  else if a = [] ∨ a.getLast? = some '/' then a ++ b
  else a ++ '/' :: b

/-- One step of `posixpath.normpath`'s component scan. -/
def normpathStep (initialSlashes : Bool) (acc : List Str) (comp : Str) : List Str :=
  if comp = [] ∨ comp = ['.'] then acc
  else if comp ≠ ['.', '.'] ∨ (¬ initialSlashes ∧ acc = []) ∨ acc.getLast? = some ['.', '.'] then
    acc ++ [comp]
  else if acc ≠ [] then acc.dropLast
  else acc

/-- `posixpath.normpath`: collapse `.`, `..` and duplicate slashes; keep a
leading `//` (exactly two) special, resolve `..` against a previous
component, keep leading `..` on relative paths, drop it at the root. -/
def posixNormpath (path : Str) : Str :=
  if path = [] then ['.']
  else
    let initialSlashes : Nat :=
      if (['/', '/'].isPrefixOf path ∧ ¬ ['/', '/', '/'].isPrefixOf path) then 2
      else if ['/'].isPrefixOf path then 1
      else 0
    let comps := splitChar '/' path
    let newComps := comps.foldl (normpathStep (initialSlashes > 0)) []
    let joined := List.replicate initialSlashes '/' ++ intercStr newComps
    if joined = [] then ['.'] else joined

/-- `path.lstrip('/')`. -/
def lstripSlash (p : Str) : Str := p.dropWhile (fun c => c = '/')

/-! ## MIME negotiation

Modelled from the spec: the module `src.wirecloud.commons.utils.mimeparser`
(functions `parse_mime_type` and `best_match`, exception `InvalidMimeType`)
is not part of the excerpt; the definitions below follow the spec's
"Mime Negotiator" contract.  Quality weights live in `[0, 1]` with at most
three decimal digits, so they are represented exactly as per-mille naturals
(`1000` = quality `1.0`); a malformed quality discards its accept entry. -/

/-- A parsed MIME type: type and subtype plus an ordered parameter mapping. -/
structure MimeT where
  mtype : Str
  msub : Str
  params : List (Str × Str)
deriving DecidableEq

def digitsValAux : Str → Nat → Option Nat
  | [], acc => some acc
  | c :: rest, acc =>
    if '0' ≤ c ∧ c ≤ '9' then digitsValAux rest (acc * 10 + (c.toNat - '0'.toNat))
    else none

/-- A nonempty all-decimal-digit string as a natural number. -/
def digitsVal (x : Str) : Option Nat := if x = [] then none else digitsValAux x 0

/-- A nonempty fraction part, scaled to per-mille (at most three digits count). -/
def fracMille (x : Str) : Option Nat :=
  if x = [] then none
  else if x.all (fun c => '0' ≤ c ∧ c ≤ '9') then
    (digitsValAux (x.take 3) 0).map (fun n => n * 10 ^ (3 - (x.take 3).length))
  else none

/-- Modelled from the spec: a quality value as a per-mille natural; `none`
when malformed or outside `[0, 1]`. -/
def parseQuality (v : Str) : Option Nat :=
  match splitChar '.' v with
  | [w] => (digitsVal w).bind (fun n => if n ≤ 1 then some (n * 1000) else none)
  | [w, f] =>
    match digitsVal w, fracMille f with
    | some n, some fr => if n * 1000 + fr ≤ 1000 then some (n * 1000 + fr) else none
    | _, _ => none
  | _ => none

def parseParamSeg (seg : Str) : Option (Str × Str) :=
  match splitChar '=' seg with
  | [k, v] => some (trimStr k, trimStr v)
  | _ => none

/-- Modelled from the spec: `parse_mime_type` — split off `;`-separated
parameters, then require a nonempty `type/subtype` pair (`none` plays the
role of the `InvalidMimeType` exception). -/
def parseMimeT (x : Str) : Option MimeT :=
  match splitChar ';' x with
  | [] => none
  | full :: rest =>
    match splitChar '/' (trimStr full) with
    | [t, st] =>
      let t := trimStr t
      let st := trimStr st
      if t = [] ∨ st = [] then none
      else some ⟨t, st, rest.filterMap parseParamSeg⟩
    | _ => none

/-- One comma-separated `Accept` segment: a MIME type plus a quality weight. -/
structure AcceptEntry where
  mt : MimeT
  q : Nat
deriving DecidableEq

/-- Modelled from the spec: parse one `Accept` segment; `q` defaults to 1.0,
a malformed quality discards the entry, the remaining parameters become
matching constraints. -/
def parseAcceptEntry (seg : Str) : Option AcceptEntry :=
  match parseMimeT seg with
  | none => none
  | some m =>
    let others := m.params.filter (fun kv => kv.1 ≠ s ("q"))
    match assocLookup (s ("q")) m.params with
    | none => some ⟨⟨m.mtype, m.msub, others⟩, 1000⟩
    | some v => (parseQuality v).map (fun q => ⟨⟨m.mtype, m.msub, others⟩, q⟩)

def parseAcceptHeader (h : Str) : List AcceptEntry :=
  (splitChar ',' h).filterMap parseAcceptEntry

/-- Type or subtype components match exactly or via a `*` wildcard. -/
def compMatches (e c : Str) : Bool := e = s ("*") || c = s ("*") || e = c

/-- A supported candidate matches an accept entry when type and subtype
match and every accept-entry parameter is present and equal in the candidate. -/
def entryMatches (cand : MimeT) (e : AcceptEntry) : Bool :=
  compMatches e.mt.mtype cand.mtype && compMatches e.mt.msub cand.msub &&
  e.mt.params.all (fun kv => assocLookup kv.1 cand.params = some kv.2)

/-- Specificity: full match > subtype wildcard > full wildcard, then more
matched parameters rank higher. -/
def fitnessOf (cand : MimeT) (e : AcceptEntry) : Nat :=
  (if e.mt.mtype ≠ s ("*") ∧ e.mt.msub ≠ s ("*") then 2000
   else if e.mt.mtype ≠ s ("*") then 1000 else 0)
  + (e.mt.params.filter (fun kv => assocLookup kv.1 cand.params = some kv.2)).length

def lexGt (a b : Nat × Nat) : Bool := b.1 < a.1 || (a.1 = b.1 && b.2 < a.2)

/-- Best `(quality, specificity)` score of a candidate over the accept
entries that match it; `(0, 0)` when none matches. -/
def scoreOf (cand : MimeT) (es : List AcceptEntry) : Nat × Nat :=
  es.foldl (fun best e =>
    if entryMatches cand e ∧ lexGt (e.q, fitnessOf cand e) best = true then
      (e.q, fitnessOf cand e)
    else best) (0, 0)

/-- One candidate step of `best_match`: keep the strictly better score, so
ties go to the earlier (server-preferred) candidate; unparsable candidates
are skipped. -/
def bmStep (es : List AcceptEntry) (acc : Option ((Nat × Nat) × Str)) (cand : Str) :
    Option ((Nat × Nat) × Str) :=
  match parseMimeT cand with
  | none => acc
  | some cm =>
    match acc with
    | none => some (scoreOf cm es, cand)
    | some (bsc, bc) =>
      if lexGt (scoreOf cm es) bsc then some (scoreOf cm es, cand) else some (bsc, bc)

/-- Modelled from the spec: `best_match` — pick the supported type with the
best score, ties broken towards the earlier entry of `supported`; empty
string when no candidate matches with nonzero quality. -/
def best_match (supported : List Str) (header : Str) : Str :=
  match supported.foldl (bmStep (parseAcceptHeader header)) none with
  | some (sc, c) => if sc.1 = 0 then [] else c
  | none => []

/-! ## Python values, requests and responses -/

/-- The universe of Python values flowing through the error-response
contexts: `None`, strings, ints, lists and insertion-ordered dicts. -/
inductive PyVal where
  | none
  | str (t : Str)
  | nat (n : Nat)
  | list (xs : List PyVal)
  | dict (kvs : List (Str × PyVal))

mutual

/-- Recursive `str()` rendering of containers (simplified: no `repr`
quoting of elements; the source applies `str` only to `error_msg`, which is
a string at every call site). -/
def pyStrRec : PyVal → Str
  | PyVal.none => s ("None")
  | PyVal.str t => t
  | PyVal.nat n => (Nat.repr n).data
  | PyVal.list xs => '[' :: (pyStrRecList xs ++ [']'])
  | PyVal.dict kvs => Char.ofNat 123 :: (pyStrRecDict kvs ++ [Char.ofNat 125])

def pyStrRecList : List PyVal → Str
  | [] => []
  | [x] => pyStrRec x
  | x :: y :: rest => pyStrRec x ++ ',' :: ' ' :: pyStrRecList (y :: rest)

def pyStrRecDict : List (Str × PyVal) → Str
  | [] => []
  | [(k, v)] => k ++ ':' :: ' ' :: pyStrRec v
  | (k, v) :: kv2 :: rest => k ++ ':' :: ' ' :: pyStrRec v ++ ',' :: ' ' :: pyStrRecDict (kv2 :: rest)

end

/-- Python `str(value)`. -/
def pyStr : PyVal → Str
  | PyVal.str t => t
  | v => pyStrRec v

/-- The error context dictionary handed to the formatters. -/
abbrev Context := List (Str × PyVal)

/-- `context.get(k)` collapsed with `is not None`: `PyVal.none` both for an
absent key and for a stored `None`, exactly as the `context.get(k) is not
None` tests in the source observe it.  Also used for `context['error_msg']`,
which every call site sets via `build_error_response` (an absent key would
raise `KeyError` in Python). -/
def ctxGet (context : Context) (k : Str) : PyVal :=
  (assocLookup k context).getD PyVal.none

/-- An lxml element: tag, optional text, children. -/
inductive XmlNode where
  | elem (tag : Str) (text : Option Str) (children : List XmlNode)

def xmlTag : XmlNode → Str
  | XmlNode.elem tag _ _ => tag

def xmlText : XmlNode → Option Str
  | XmlNode.elem _ text _ => text

def xmlChildren : XmlNode → List XmlNode
  | XmlNode.elem _ _ children => children

/-- A formatter's produced body, kept structured (the serialisations
`json.dumps` / `etree.tostring` are injective renderings of these values).
`xmlError` marks the `TypeError` the XML formatter raises on detail values
that fit none of its branches. -/
inductive Body where
  | json (v : PyVal)
  | xml (x : XmlNode)
  | xmlError
  | text (t : Str)

/-- The request data the layer reads: three headers plus the two attributes
the guards attach (`best_response_mimetype`, `mimetype`). -/
structure Request' where
  xRequestedWith : Option Str
  accept : Option Str
  contentType : Option Str
  best_response_mimetype : Option Str
  mimetype : Option Str

/-- `setattr(request, 'best_response_mimetype', v)`. -/
def setBestResponseMimetype (r : Request') (v : Str) : Request' :=
  ⟨r.xRequestedWith, r.accept, r.contentType, some v, r.mimetype⟩

/-- `setattr(request, 'mimetype', v)`. -/
def setMimetype (r : Request') (v : Str) : Request' :=
  ⟨r.xRequestedWith, r.accept, r.contentType, r.best_response_mimetype, some v⟩

/-- A built `fastapi.Response`: body, status code, content type, extra headers. -/
structure Resp where
  body : Body
  status : Nat
  media_type : Str
  headers : List (Str × Str)

/-- An error formatter: `(request, mimetype, status_code, context) -> body`. -/
abbrev Formatter := Request' → Str → Nat → Context → Body

/-! ## Error formatters (`http.py` lines 56–113) -/

/-- `get_xml_error_response`'s per-key child for a mapping `details`.
Python dispatches `isinstance(value, str)` / `hasattr(value, '__iter__')` /
else.  A `dict` value has `__iter__` (iteration yields its keys), so it is
caught by the second branch and rendered as repeated `<element>` children
holding the keys; the third branch (children named after nested keys) is
unreachable for mappings and raises `TypeError` (`none` here) for the
remaining non-iterable values. -/
def xml_details_child (k : Str) (v : PyVal) : Option XmlNode :=
  match v with
  | PyVal.str t => some (XmlNode.elem k (some t) [])
  | PyVal.list xs =>
    (xs.mapM (fun x =>
      match x with
      | PyVal.str t => some (XmlNode.elem (s ("element")) (some t) [])
      | _ => none)).map (fun cs => XmlNode.elem k none cs)
  | PyVal.dict kvs =>
    some (XmlNode.elem k none
      (kvs.map (fun kv => XmlNode.elem (s ("element")) (some kv.1) [])))
  | _ => none

/-- `get_xml_error_response` (lines 56–89): `<error>` with a
`<description>` child and, when `details` is present, a `<details>` child.
A top-level `list`/`int` detail raises `TypeError` in Python (indexing a
list by element, iterating an int), modelled as `Body.xmlError`. -/
def get_xml_error_response (request : Request') (mimetype : Str) (status_code : Nat)
    (context : Context) : Body :=
  let description := XmlNode.elem (s ("description")) (some (pyStr (ctxGet context (s ("error_msg"))))) []
  match ctxGet context (s ("details")) with
  | PyVal.none => Body.xml (XmlNode.elem (s ("error")) none [description])
  | PyVal.str t =>
    Body.xml (XmlNode.elem (s ("error")) none
      [description, XmlNode.elem (s ("details")) (some t) []])
  | PyVal.dict kvs =>
    match kvs.mapM (fun kv => xml_details_child kv.1 kv.2) with
    | some children =>
      Body.xml (XmlNode.elem (s ("error")) none
        [description, XmlNode.elem (s ("details")) none children])
    | none => Body.xmlError
  | _ => Body.xmlError

/-- `get_json_error_response` (lines 92–99): `{'description': str(error_msg)}`
plus the raw `details` value under `'details'` when it is not `None`. -/
def get_json_error_response (request : Request') (mimetype : Str) (status_code : Nat)
    (context : Context) : Body :=
  let base := [(s ("description"), PyVal.str (pyStr (ctxGet context (s ("error_msg")))))]
  match ctxGet context (s ("details")) with
  | PyVal.none => Body.json (PyVal.dict base)
  | d => Body.json (PyVal.dict (base ++ [(s ("details"), d)]))

/-- `get_plain_text_error_response` (lines 102–103): just the message. -/
def get_plain_text_error_response (request : Request') (mimetype : Str) (status_code : Nat)
    (context : Context) : Body :=
  Body.text (pyStr (ctxGet context (s ("error_msg"))))

/-- `ERROR_FORMATTERS` (lines 106–113). -/
def ERROR_FORMATTERS : List (Str × Formatter) :=
  [(s ("application/json; charset=utf-8"), get_json_error_response),
   (s ("application/xml; charset=utf-8"), get_xml_error_response),
   (s ("text/plain; charset=utf-8"), get_plain_text_error_response),
   ([], get_plain_text_error_response)]

/-! ## Response builders (`http.py` lines 116–182) -/

/-- `build_response` (lines 116–138): force JSON for `XMLHttpRequest`
callers, otherwise negotiate among the formatter keys (with the `''`
fallback removed from the candidate list but kept as lookup default);
an unknown resolved content type raises (`Except.error`). -/
def build_response (request : Request') (status_code : Nat) (context : Context)
    (formatters : List (Str × Formatter)) (headers : Option (List (Str × Str))) :
    Except Str Resp :=
  let content_type :=
    if request.xRequestedWith.getD [] = s ("XMLHttpRequest") then
      s ("application/json; charset=utf-8")
    else
      best_match (listRemoveFirst [] (formatters.map Prod.fst)) (request.accept.getD (s ("*/*")))
  match assocLookup content_type formatters with
  | some formatter =>
    Except.ok ⟨formatter request content_type status_code context, status_code,
      content_type, headers.getD []⟩
  | none => Except.error (s ("No suitable formatter found"))

/-- `build_error_response` (lines 141–155).  The context dictionary is
caller-shared and mutated in place; the explicit-state embedding returns
the final context next to the response. -/
def build_error_response (request : Request') (status_code : Nat) (error_msg : Str)
    (extra_formats : Option (List (Str × Formatter))) (headers : Option (List (Str × Str)))
    (details : PyVal) (context : Option Context) : Context × Except Str Resp :=
  let formatters :=
    match extra_formats with
    | some ef => dictUpdate ef ERROR_FORMATTERS
    | none => ERROR_FORMATTERS
  let ctx := context.getD []
  let ctx := dictUpdate ctx [(s ("error_msg"), PyVal.str error_msg), (s ("details"), details)]
  (ctx, build_response request status_code ctx formatters headers)

/-- `build_not_found_response` (lines 169–170). -/
def build_not_found_response (request : Request') : Except Str Resp :=
  (build_error_response request 404 (s ("Page Not Found")) none none PyVal.none none).2

/-- `build_validation_error_response` (lines 173–174). -/
def build_validation_error_response (request : Request') : Except Str Resp :=
  (build_error_response request 422 (s ("Invalid Payload")) none none PyVal.none none).2

/-- `build_auth_error_response` (lines 177–178). -/
def build_auth_error_response (request : Request') : Except Str Resp :=
  (build_error_response request 401 (s ("Authentication Required")) none none PyVal.none none).2

/-- `build_permission_denied_response` (lines 181–182). -/
def build_permission_denied_response (request : Request') (error_msg : Str) : Except Str Resp :=
  (build_error_response request 403 error_msg none none PyVal.none none).2

/-- `get_content_type` (lines 158–166): parse the `Content-Type` header,
`('', {})` when the header is missing or unparsable. -/
def get_content_type (request : Request') : Str × List (Str × Str) :=
  match request.contentType with
  | some h =>
    match parseMimeT h with
    | some m => (m.mtype ++ '/' :: m.msub, m.params)
    | none => ([], [])
  | none => ([], [])

/-! ## Request guards (`http.py` lines 185–266)

A handler's signature is modelled by the list of its declared parameter
names; the values reaching the wrapper at call time are modelled by an
explicit keyword-argument record.  `kwargs.get(k, default)` returns the
stored value — possibly `None` — when the key is present, and the default
only when it is absent. -/

/-- Opaque stand-in for `src.wirecloud.commons.auth.schemas.UserAll`. -/
structure UserAll where
  id : Nat

/-- The keyword arguments a wrapped handler can receive: for each of the
names the guards look up, `none` = key absent, `some none` = key present
holding `None`, `some (some v)` = key present holding a value. -/
structure Kwargs where
  user : Option (Option UserAll)
  _user : Option (Option UserAll)
  request : Option (Option Request')
  _request : Option (Option Request')

/-- `kwargs.get('user', kwargs.get('_user'))`. -/
def kwargsUser (k : Kwargs) : Option UserAll :=
  match k.user with
  | some v => v
  | none =>
    match k._user with
    | some v => v
    | none => none

/-- `kwargs.get('request', kwargs.get('_request'))`. -/
def kwargsRequest (k : Kwargs) : Option Request' :=
  match k.request with
  | some v => v
  | none =>
    match k._request with
    | some v => v
    | none => none

/-- Awaiting the coroutine of an async handler yields its return value;
calling a sync handler does the same directly.  Both paths reduce to the
same application in the embedding. -/
def await_coroutine {α β : Type} (f : α → β) (x : α) : β := f x

/-- A request value with no headers set, standing in for the `None` that
`kwargs.get` yields when no request was passed (Python would fail with an
attribute error inside `build_error_response` in that case; the wrap-time
check guarantees the parameter is declared). -/
def requestNone : Request' := ⟨none, none, none, none, none⟩

/-- `check_decorator_params` (lines 185–188): each required name must occur
in the handler's signature, plainly or prefixed with `_`; the first missing
one raises `ValueError`. -/
def check_decorator_params (handlerParams : List Str) (params : List Str) : Except Str Unit :=
  match params with
  | [] => Except.ok ()
  | p :: rest =>
    if ¬ (handlerParams.contains p || handlerParams.contains ('_' :: p)) then
      Except.error (s ("The handler must have a ") ++ p ++ s (" parameter"))
    else check_decorator_params handlerParams rest

/-- The call-time part of `authentication_required` (lines 195–210). -/
def authentication_required_wrapper (isAsync : Bool) (handler : Kwargs → Except Str Resp)
    (kwargs : Kwargs) : Except Str Resp :=
  match kwargsUser kwargs with
  | none =>
    (build_error_response ((kwargsRequest kwargs).getD requestNone) 401
      (s ("Authentication Required")) none none PyVal.none none).2
  | some _ =>
    if isAsync then await_coroutine handler kwargs else handler kwargs

/-- `authentication_required` (lines 191–212): wrap-time signature check,
then the 401 guard. -/
def authentication_required (handlerParams : List Str) (isAsync : Bool)
    (handler : Kwargs → Except Str Resp) : Except Str (Kwargs → Except Str Resp) :=
  match check_decorator_params handlerParams [s ("user"), s ("request")] with
  | Except.error e => Except.error e
  | Except.ok _ => Except.ok (authentication_required_wrapper isAsync handler)

def msg406 : Str :=
  s ("The requested resource is only capable of generating content not acceptable according to the Accept headers sent in the request")

/-- The call-time part of `produces` (lines 219–239): negotiate, attach
`best_response_mimetype`, 406 with the supported list on failure. -/
def produces_wrapper (mime_types : List Str) (isAsync : Bool)
    (handler : Request' → Except Str Resp) (request : Request') : Except Str Resp :=
  let accept_header := request.accept.getD (s ("*/*"))
  let request := setBestResponseMimetype request (best_match mime_types accept_header)
  if request.best_response_mimetype = some [] then
    (build_error_response request 406 msg406 none none
      (PyVal.dict [(s ("supported_mime_types"), PyVal.list (mime_types.map PyVal.str))]) none).2
  else if isAsync then await_coroutine handler request else handler request

/-- `produces` (lines 215–241). -/
def produces (mime_types : List Str) (handlerParams : List Str) (isAsync : Bool)
    (handler : Request' → Except Str Resp) : Except Str (Request' → Except Str Resp) :=
  match check_decorator_params handlerParams [s ("request")] with
  | Except.error e => Except.error e
  | Except.ok _ => Except.ok (produces_wrapper mime_types isAsync handler)

def msg415 : Str := s ("Unsupported request media type")

/-- The call-time part of `consumes` (lines 248–264): attach `mimetype`
(the content type without its parameters), 415 when it is not listed. -/
def consumes_wrapper (mime_types : List Str) (isAsync : Bool)
    (handler : Request' → Except Str Resp) (request : Request') : Except Str Resp :=
  let mt := (get_content_type request).1
  let request := setMimetype request mt
  if ¬ mime_types.contains mt then
    (build_error_response request 415 msg415 none none PyVal.none none).2
  else if isAsync then await_coroutine handler request else handler request

/-- `consumes` (lines 244–266). -/
def consumes (mime_types : List Str) (handlerParams : List Str) (isAsync : Bool)
    (handler : Request' → Except Str Resp) : Except Str (Request' → Except Str Resp) :=
  match check_decorator_params handlerParams [s ("request")] with
  | Except.error e => Except.error e
  | Except.ok _ => Except.ok (consumes_wrapper mime_types isAsync handler)

/-! ## The download-file responder (`http.py` lines 377–401)

File-system existence (`os.path.isfile`) is I/O and enters as an oracle
parameter; the `settings.USE_XSENDFILE` deployment flag enters as a
boolean. -/

/-- The four response shapes of `build_downloadfile_response`:
`redirect loc` is `Response(status_code=302, headers={'Location': loc})`,
`notFound` carries `build_not_found_response(request)`,
`serveFile p` is `FileResponse(p, media_type='application/octet-stream')`,
`xsendfile p` is `Response(headers={'X-Sendfile': p})`. -/
inductive DlResp where
  | redirect (location : Str)
  | notFound (r : Except Str Resp)
  | serveFile (path : Str)
  | xsendfile (path : Str)

def isRedirect : DlResp → Bool
  | DlResp.redirect _ => true
  | _ => false

/-- One iteration of the reconstruction loop (lines 383–389):
`os.path.splitdrive` / `os.path.split` (both no-ops on POSIX for the
slash-free pieces), drop `os.curdir` / `os.pardir`, else
`os.path.join(newpath, part).replace('\\', '/')`. -/
def reconstructStep (newpath : Str) (part : Str) : Str :=
  let part1 := (posixSplitdrive part).2
  let part2 := (posixSplit part1).2
  if part2 = ['.'] ∨ part2 = ['.', '.'] then newpath
  else replaceBackslash (posixJoin newpath part2)

/-- Lines 382–389: rebuild the path from its `/`-separated pieces. -/
def reconstructPath (path : Str) : Str :=
  (splitChar '/' path).foldl reconstructStep []

/-- Lines 380–381: `posixpath.normpath(unquote(file_path)).lstrip('/')`. -/
def normalizedPath (file_path : Str) : Str :=
  lstripSlash (posixNormpath (percentDecode file_path))

/-- `build_downloadfile_response` (lines 377–401). -/
def build_downloadfile_response (request : Request') (isfile : Str → Bool)
    (use_xsendfile : Bool) (file_path base_dir : Str) : DlResp :=
  let path := normalizedPath file_path
  let newpath := reconstructPath path
  if newpath ≠ [] ∧ path ≠ newpath then DlResp.redirect newpath
  else
    let fullpath := posixJoin base_dir newpath
    if ¬ isfile fullpath then DlResp.notFound (build_not_found_response request)
    else if ¬ use_xsendfile then DlResp.serveFile fullpath
    else DlResp.xsendfile fullpath

/-- Invariant of the reconstruction accumulator: no leading slash, no
backslash, no `..` piece. -/
def SafeAcc (acc : Str) : Prop :=
  acc.head? ≠ some '/' ∧ '\\' ∉ acc ∧ ∀ p ∈ splitChar '/' acc, p ≠ ['.', '.']

/-- The sanitized shape the served relative path always has: no leading
separator, no `..` component, no drive prefix. -/
def sanitizedRel (np : Str) : Prop :=
  np.head? ≠ some '/' ∧ (∀ p ∈ splitChar '/' np, p ≠ ['.', '.']) ∧
  posixSplitdrive np = ([], np)

/-! ## The strict-discard characterisation of the reconstruction loop -/

/-- The pieces the reconstruction loop keeps: everything except `.` and `..`. -/
def discardKeep (p : Str) : Bool :=
  if p = ['.'] ∨ p = ['.', '.'] then false else true

/-- `'/' + k` for every piece, appended. -/
def slashPieces : List Str → Str
  | [] => []
  | k :: ks => '/' :: k ++ slashPieces ks

/-! ## C2: the `extra_formats` merge direction -/

/-- A caller-supplied formatter that renders a recognisable constant body,
used to observe which function the merged table applies. -/
def customFormatter : Formatter := fun _ _ _ _ => Body.text (s ("CUSTOM"))

/-- The text of a plain-text body (any other body: empty). -/
def bodyTextOf : Body → Str
  | Body.text t => t
  | _ => []

/-- A request whose `Accept` header asks for `text/plain`. -/
def reqPlain : Request' := ⟨none, some (s ("text/plain")), none, none, none⟩

/-- Modelled from the spec's words for C9 only (the comparison target of
the refutation): a nested-mapping value rendered as child elements named
after the nested keys, holding the nested values as text. -/
def spec_nested_mapping_child (k : Str) (kvs2 : List (Str × Str)) : XmlNode :=
  XmlNode.elem k none (kvs2.map (fun kv => XmlNode.elem kv.1 (some kv.2) []))

/-! ## Helpers for the guard claims -/

/-- The content type `build_response` resolves for a request over a
formatter table (the `XMLHttpRequest` shortcut or content negotiation). -/
def negotiatedType (request : Request') (formatters : List (Str × Formatter)) : Str :=
  if request.xRequestedWith.getD [] = s ("XMLHttpRequest") then
    s ("application/json; charset=utf-8")
  else
    best_match (listRemoveFirst [] (formatters.map Prod.fst)) (request.accept.getD (s ("*/*")))

/-- Is `pre` a prefix of `l`? -/
def isPrefixB : Str → Str → Bool
  | [], _ => true
  | _ :: _, [] => false
  | a :: as, b :: bs => a = b && isPrefixB as bs

/-- Does `needle` occur as a contiguous substring of the second argument? -/
def containsSub (needle : Str) : Str → Bool
  | [] => isPrefixB needle []
  | c :: rest => isPrefixB needle (c :: rest) || containsSub needle rest

/-- The `details` payload `produces` attaches to its 406 response. -/
def details406 (mime_types : List Str) : PyVal :=
  PyVal.dict [(s ("supported_mime_types"), PyVal.list (mime_types.map PyVal.str))]

/-- The context dictionary the 406 response hands to the formatters. -/
def ctx406 (mime_types : List Str) : Context :=
  [(s ("error_msg"), PyVal.str msg406), (s ("details"), details406 mime_types)]

/-- A request whose `Accept` header asks for `application/json`. -/
def reqJson : Request' := ⟨none, some (s ("application/json")), none, none, none⟩

/-- A handler stub whose result is recognisable. -/
def handlerStub : Request' → Except Str Resp := fun _ => Except.error (s ("handler ran"))

/-- A kwargs-handler stub whose result is recognisable. -/
def kwHandlerStub : Kwargs → Except Str Resp := fun _ => Except.error (s ("handler ran"))

/-! # Theorems -/

theorem splitChar_ne_nil (sep : Char) (l : Str) : splitChar sep l ≠ [] := by
  induction l with
  | nil => simp [splitChar]
  | cons c rest ih =>
    simp only [splitChar]
    split
    · simp
    · split
      · simp
      · simp

theorem splitChar_cons_sep (sep : Char) (rest : Str) :
    splitChar sep (sep :: rest) = [] :: splitChar sep rest := by
  simp [splitChar]

theorem splitChar_cons_ne (sep c : Char) (rest : Str) (hc : c ≠ sep)
    (h : Str) (t : List Str) (heq : splitChar sep rest = h :: t) :
    splitChar sep (c :: rest) = (c :: h) :: t := by
  simp [splitChar, hc, heq]

/-- Splitting distributes over an explicit separator occurrence. -/
theorem splitChar_append_sep (sep : Char) (x y : Str) :
    splitChar sep (x ++ sep :: y) = splitChar sep x ++ splitChar sep y := by
  induction x with
  | nil => simp [splitChar]
  | cons c rest ih =>
    have hx : (c :: rest) ++ sep :: y = c :: (rest ++ sep :: y) := rfl
    rw [hx]
    by_cases hc : c = sep
    · subst hc
      rw [splitChar_cons_sep, splitChar_cons_sep, ih, List.cons_append]
    · cases h : splitChar sep rest with
      | nil => exact absurd h (splitChar_ne_nil sep rest)
      | cons h' t' =>
        have h2 : splitChar sep (rest ++ sep :: y) = h' :: (t' ++ splitChar sep y) := by
          rw [ih, h, List.cons_append]
        rw [splitChar_cons_ne sep c _ hc _ _ h2,
            splitChar_cons_ne sep c _ hc _ _ h, List.cons_append]

/-- Pieces of a split never contain the separator. -/
theorem splitChar_mem_no_sep (sep : Char) (l : Str) :
    ∀ p ∈ splitChar sep l, sep ∉ p := by
  induction l with
  | nil => intro p hp; simp [splitChar] at hp; simp [hp]
  | cons c rest ih =>
    intro p hp
    by_cases hc : c = sep
    · subst hc
      rw [splitChar_cons_sep] at hp
      rcases List.mem_cons.1 hp with hp | hp
      · simp [hp]
      · exact ih p hp
    · cases h : splitChar sep rest with
      | nil => exact absurd h (splitChar_ne_nil sep rest)
      | cons h' t' =>
        rw [splitChar_cons_ne sep c _ hc _ _ h] at hp
        rcases List.mem_cons.1 hp with hp | hp
        · subst hp
          intro hmem
          rcases List.mem_cons.1 hmem with h1 | h1
          · exact hc h1.symm
          · exact ih h' (h ▸ List.mem_cons_self h' t') h1
        · exact ih p (h ▸ List.mem_cons_of_mem h' hp)

/-- Characters of the pieces all come from the original list. -/
theorem splitChar_mem_subset (sep : Char) (l : Str) :
    ∀ p ∈ splitChar sep l, ∀ c ∈ p, c ∈ l := by
  induction l with
  | nil => intro p hp; simp [splitChar] at hp; simp [hp]
  | cons c rest ih =>
    intro p hp d hd
    by_cases hc : c = sep
    · subst hc
      rw [splitChar_cons_sep] at hp
      rcases List.mem_cons.1 hp with hp | hp
      · simp [hp] at hd
      · exact List.mem_cons_of_mem c (ih p hp d hd)
    · cases h : splitChar sep rest with
      | nil => exact absurd h (splitChar_ne_nil sep rest)
      | cons h' t' =>
        rw [splitChar_cons_ne sep c _ hc _ _ h] at hp
        rcases List.mem_cons.1 hp with hp | hp
        · subst hp
          rcases List.mem_cons.1 hd with h1 | h1
          · exact h1 ▸ List.mem_cons_self c rest
          · exact List.mem_cons_of_mem c
              (ih h' (h ▸ List.mem_cons_self h' t') d h1)
        · exact List.mem_cons_of_mem c
            (ih p (h ▸ List.mem_cons_of_mem h' hp) d hd)

/-- A list without the separator splits to the singleton piece. -/
theorem splitChar_of_no_sep (sep : Char) (l : Str) (h : sep ∉ l) :
    splitChar sep l = [l] := by
  induction l with
  | nil => rfl
  | cons c rest ih =>
    have hc : c ≠ sep := fun hcc => h (hcc ▸ List.mem_cons_self c rest)
    have hrest : sep ∉ rest := fun hr => h (List.mem_cons_of_mem c hr)
    simp only [splitChar, if_neg hc, ih hrest]

theorem assocLookup_assocSet_self {α : Type} (d : List (Str × α)) (k : Str) (v : α) :
    assocLookup k (assocSet d k v) = some v := by
  induction d with
  | nil => simp [assocSet, assocLookup]
  | cons kv rest ih =>
    obtain ⟨k', v'⟩ := kv
    by_cases h : k' = k
    · simp [assocSet, assocLookup, h]
    · simp [assocSet, assocLookup, h, ih]

theorem assocLookup_assocSet_other {α : Type} (d : List (Str × α)) (k k0 : Str) (v : α)
    (hne : k0 ≠ k) : assocLookup k0 (assocSet d k v) = assocLookup k0 d := by
  induction d with
  | nil =>
    simp only [assocSet, assocLookup]
    rw [if_neg (fun h => hne h.symm)]
  | cons kv rest ih =>
    obtain ⟨k', v'⟩ := kv
    by_cases h : k' = k
    · subst h
      simp only [assocSet, if_pos rfl, assocLookup]
      rw [if_neg (fun h2 => hne h2.symm ), if_neg (fun h2 => hne h2.symm )]
    · simp [assocSet, assocLookup, h, ih]

theorem replaceBackslash_no_backslash (x : Str) : '\\' ∉ replaceBackslash x := by
  intro h
  rcases List.mem_map.1 h with ⟨c, _, hc⟩
  by_cases hb : c = '\\' <;> simp [hb] at hc

theorem replaceBackslash_id (x : Str) (h : '\\' ∉ x) : replaceBackslash x = x := by
  induction x with
  | nil => rfl
  | cons c rest ih =>
    have hc : c ≠ '\\' := fun hcc => h (hcc ▸ List.mem_cons_self c rest)
    have hrest : '\\' ∉ rest := fun hr => h (List.mem_cons_of_mem c hr)
    simp [replaceBackslash, hc] at ih ⊢
    exact ih hrest

theorem rfindSlashSucc_of_no_slash (p : Str) (h : '/' ∉ p) : rfindSlashSucc p = 0 := by
  induction p with
  | nil => rfl
  | cons c rest ih =>
    have hc : c ≠ '/' := fun hcc => h (hcc ▸ List.mem_cons_self c rest)
    have hrest : '/' ∉ rest := fun hr => h (List.mem_cons_of_mem c hr)
    simp [rfindSlashSucc, ih hrest, hc]

theorem posixSplit_of_no_slash (p : Str) (h : '/' ∉ p) : posixSplit p = ([], p) := by
  simp [posixSplit, rfindSlashSucc_of_no_slash p h]

theorem bmStep_fold_mem (es : List AcceptEntry) (supported : List Str) :
    ∀ (l : List Str) (acc : Option ((Nat × Nat) × Str)),
      (∀ p, acc = some p → p.2 ∈ supported) →
      (∀ x ∈ l, x ∈ supported) →
      ∀ p, l.foldl (bmStep es) acc = some p → p.2 ∈ supported := by
  intro l
  induction l with
  | nil =>
    intro acc hacc _ p hp
    exact hacc p hp
  | cons x xs ih =>
    intro acc hacc hmem p hp
    have hx : x ∈ supported := hmem x (List.mem_cons_self x xs)
    have hxs : ∀ y ∈ xs, y ∈ supported := fun y hy => hmem y (List.mem_cons_of_mem x hy)
    rw [List.foldl_cons] at hp
    refine ih (bmStep es acc x) ?_ hxs p hp
    intro q hq
    unfold bmStep at hq
    cases hpm : parseMimeT x with
    | none =>
      rw [hpm] at hq
      exact hacc q hq
    | some cm =>
      rw [hpm] at hq
      cases acc with
      | none =>
        simp only [Option.some.injEq] at hq
        rw [← hq]
        exact hx
      | some b =>
        obtain ⟨bsc, bc⟩ := b
        simp only at hq
        by_cases hlex : lexGt (scoreOf cm es) bsc
        · rw [if_pos hlex] at hq
          simp only [Option.some.injEq] at hq
          rw [← hq]
          exact hx
        · rw [if_neg hlex] at hq
          simp only [Option.some.injEq] at hq
          rw [← hq]
          exact hacc (bsc, bc) rfl

/-- The result of `best_match` is the empty string or one of the supported types. -/
theorem best_match_mem (supported : List Str) (header : Str) :
    best_match supported header = [] ∨ best_match supported header ∈ supported := by
  unfold best_match
  cases hres : supported.foldl (bmStep (parseAcceptHeader header)) none with
  | none => exact Or.inl rfl
  | some p =>
    obtain ⟨sc, c⟩ := p
    have hc : c ∈ supported :=
      bmStep_fold_mem (parseAcceptHeader header) supported supported none
        (fun q hq => by cases hq) (fun x hx => hx) (sc, c) hres
    by_cases hq : sc.1 = 0
    · refine Or.inl ?_
      show (if sc.1 = 0 then [] else c) = []
      rw [if_pos hq]
    · refine Or.inr ?_
      show (if sc.1 = 0 then [] else c) ∈ supported
      rw [if_neg hq]
      exact hc

/-! ## Path-safety lemmas for `build_downloadfile_response` -/

theorem eq_dropLast_append_of_getLast (a : Str) (c : Char) (h : a.getLast? = some c) :
    a = a.dropLast ++ [c] := by
  induction a with
  | nil => simp at h
  | cons x xs ih =>
    cases xs with
    | nil =>
      simp only [List.getLast?_singleton, Option.some.injEq] at h
      simp [h]
    | cons y ys =>
      have h2 : (y :: ys).getLast? = some c := by simpa using h
      have := ih h2
      calc x :: y :: ys = x :: ((y :: ys).dropLast ++ [c]) := by rw [← this]
        _ = (x :: y :: ys).dropLast ++ [c] := by simp

theorem posixJoin_not_abs (a b : Str) (hb : '/' ∉ b) : ¬ b.head? = some '/' := by
  cases b with
  | nil => simp
  | cons c cs =>
    have : c ≠ '/' := fun hcc => hb (hcc ▸ List.mem_cons_self c cs)
    simp [this]

/-- Every `/`-piece of `posixJoin acc part` is a piece of `acc` or is `part`
itself, provided `part` has no slash. -/
theorem splitChar_posixJoin (acc part : Str) (hpart : '/' ∉ part) :
    ∀ p ∈ splitChar '/' (posixJoin acc part), p ∈ splitChar '/' acc ∨ p = part := by
  intro p hp
  unfold posixJoin at hp
  rw [if_neg (posixJoin_not_abs acc part hpart)] at hp
  by_cases hcase : acc = [] ∨ acc.getLast? = some '/'
  · rw [if_pos hcase] at hp
    rcases hcase with hnil | hlast
    · subst hnil
      rw [List.nil_append, splitChar_of_no_sep '/' part hpart] at hp
      exact Or.inr (by simpa using hp)
    · have hdecomp := eq_dropLast_append_of_getLast acc '/' hlast
      rw [show acc ++ part = acc.dropLast ++ '/' :: part from by rw [hdecomp]; simp] at hp
      rw [splitChar_append_sep '/' acc.dropLast part,
          splitChar_of_no_sep '/' part hpart] at hp
      rcases List.mem_append.1 hp with h1 | h1
      · refine Or.inl ?_
        have hacc : splitChar '/' acc = splitChar '/' acc.dropLast ++ [[]] := by
          conv_lhs => rw [hdecomp]
          rw [show acc.dropLast ++ ['/'] = acc.dropLast ++ '/' :: [] from rfl,
              splitChar_append_sep '/' acc.dropLast []]
          rfl
        rw [hacc]
        exact List.mem_append.2 (Or.inl h1)
      · exact Or.inr (by simpa using h1)
  · rw [if_neg hcase] at hp
    rw [splitChar_append_sep '/' acc part, splitChar_of_no_sep '/' part hpart] at hp
    rcases List.mem_append.1 hp with h1 | h1
    · exact Or.inl h1
    · exact Or.inr (by simpa using h1)

theorem posixJoin_head (acc part : Str) (hacc : acc.head? ≠ some '/') (hpart : '/' ∉ part) :
    (posixJoin acc part).head? ≠ some '/' := by
  unfold posixJoin
  rw [if_neg (posixJoin_not_abs acc part hpart)]
  by_cases hcase : acc = [] ∨ acc.getLast? = some '/'
  · rw [if_pos hcase]
    cases acc with
    | nil => simpa using posixJoin_not_abs [] part hpart
    | cons a as => simpa using hacc
  · rw [if_neg hcase]
    cases acc with
    | nil => exact absurd (Or.inl rfl) hcase
    | cons a as => simpa using hacc

theorem posixJoin_no_backslash (acc part : Str) (hacc : '\\' ∉ acc) (hpart : '\\' ∉ part) :
    '\\' ∉ posixJoin acc part := by
  unfold posixJoin
  split
  · exact hpart
  · split
    · intro h
      rcases List.mem_append.1 h with h | h
      · exact hacc h
      · exact hpart h
    · intro h
      rcases List.mem_append.1 h with h | h
      · exact hacc h
      · rcases List.mem_cons.1 h with h | h
        · exact absurd h (by decide)
        · exact hpart h

theorem safeAcc_nil : SafeAcc [] := by
  refine ⟨by simp, by simp, ?_⟩
  intro p hp
  simp [splitChar] at hp
  simp [hp]

theorem reconstructStep_safe (acc part : Str) (hsafe : SafeAcc acc)
    (hslash : '/' ∉ part) (hbs : '\\' ∉ part) : SafeAcc (reconstructStep acc part) := by
  unfold reconstructStep
  simp only [posixSplitdrive, posixSplit_of_no_slash part hslash]
  by_cases hdot : part = ['.'] ∨ part = ['.', '.']
  · rw [if_pos hdot]
    exact hsafe
  · rw [if_neg hdot]
    have hjoin_nb : '\\' ∉ posixJoin acc part :=
      posixJoin_no_backslash acc part hsafe.2.1 hbs
    rw [replaceBackslash_id _ hjoin_nb]
    refine ⟨posixJoin_head acc part hsafe.1 hslash, hjoin_nb, ?_⟩
    intro p hp
    rcases splitChar_posixJoin acc part hslash p hp with h | h
    · exact hsafe.2.2 p h
    · subst h
      intro hcontra
      exact hdot (Or.inr hcontra)

theorem reconstructStep_no_backslash (acc part : Str) (hacc : '\\' ∉ acc) :
    '\\' ∉ reconstructStep acc part := by
  show '\\' ∉
    (if (posixSplit (posixSplitdrive part).2).2 = ['.'] ∨
        (posixSplit (posixSplitdrive part).2).2 = ['.', '.'] then acc
     else replaceBackslash (posixJoin acc (posixSplit (posixSplitdrive part).2).2))
  split
  · exact hacc
  · exact replaceBackslash_no_backslash _

theorem reconstruct_foldl_no_backslash (parts : List Str) :
    ∀ acc : Str, '\\' ∉ acc → '\\' ∉ parts.foldl reconstructStep acc := by
  induction parts with
  | nil => intro acc hacc; simpa using hacc
  | cons part rest ih =>
    intro acc hacc
    rw [List.foldl_cons]
    exact ih _ (reconstructStep_no_backslash acc part hacc)

theorem reconstructPath_no_backslash (path : Str) : '\\' ∉ reconstructPath path :=
  reconstruct_foldl_no_backslash (splitChar '/' path) [] (by simp)

theorem reconstruct_foldl_safe (parts : List Str) :
    ∀ acc : Str, SafeAcc acc → (∀ p ∈ parts, '/' ∉ p ∧ '\\' ∉ p) →
    SafeAcc (parts.foldl reconstructStep acc) := by
  induction parts with
  | nil => intro acc hacc _; simpa using hacc
  | cons part rest ih =>
    intro acc hacc hmem
    rw [List.foldl_cons]
    refine ih _ ?_ (fun p hp => hmem p (List.mem_cons_of_mem part hp))
    exact reconstructStep_safe acc part hacc
      (hmem part (List.mem_cons_self part rest)).1
      (hmem part (List.mem_cons_self part rest)).2

theorem reconstructPath_sanitized (path : Str) (hnb : '\\' ∉ path) :
    sanitizedRel (reconstructPath path) := by
  have hparts : ∀ p ∈ splitChar '/' path, '/' ∉ p ∧ '\\' ∉ p := by
    intro p hp
    refine ⟨splitChar_mem_no_sep '/' path p hp, ?_⟩
    intro hc
    exact hnb (splitChar_mem_subset '/' path p hp '\\' hc)
  have hsafe : SafeAcc (reconstructPath path) :=
    reconstruct_foldl_safe (splitChar '/' path) [] safeAcc_nil hparts
  exact ⟨hsafe.1, hsafe.2.2, rfl⟩

theorem sanitizedRel_nil : sanitizedRel [] := by
  refine ⟨by simp, ?_, rfl⟩
  intro p hp
  simp [splitChar] at hp
  simp [hp]

/-! ## Claim theorems -/

theorem build_response_cases (request : Request') (status_code : Nat) (context : Context)
    (formatters : List (Str × Formatter)) (headers : Option (List (Str × Str))) :
    build_response request status_code context formatters headers =
      match assocLookup (negotiatedType request formatters) formatters with
      | some formatter =>
        Except.ok ⟨formatter request (negotiatedType request formatters) status_code context,
          status_code, negotiatedType request formatters, headers.getD []⟩
      | none => Except.error (s ("No suitable formatter found")) := rfl

theorem build_response_status (request : Request') (status_code : Nat) (context : Context)
    (formatters : List (Str × Formatter)) (headers : Option (List (Str × Str))) (r : Resp)
    (h : build_response request status_code context formatters headers = Except.ok r) :
    r.status = status_code := by
  rw [build_response_cases] at h
  cases hl : assocLookup (negotiatedType request formatters) formatters with
  | some formatter =>
    rw [hl] at h
    simp only [Except.ok.injEq] at h
    rw [← h]
  | none =>
    rw [hl] at h
    exact Except.noConfusion h

/-- C1: for every requested file path and base directory,
`build_downloadfile_response` never serves a file outside `base_dir`: the
result is a 302 redirect, a 404 not-found response, or a serve (direct or
X-Sendfile) of the file at `base_dir` joined with a sanitized relative path
that has no `..` component, no leading separator and no drive prefix. -/
theorem C1_downloadfile_path_safety (request : Request') (isfile : Str → Bool)
    (use_xsendfile : Bool) (file_path base_dir : Str) :
    (∃ loc, build_downloadfile_response request isfile use_xsendfile file_path base_dir =
      DlResp.redirect loc) ∨
    (∃ r, build_downloadfile_response request isfile use_xsendfile file_path base_dir =
      DlResp.notFound r ∧ ∀ resp, r = Except.ok resp → resp.status = 404) ∨
    (∃ np, sanitizedRel np ∧
      (build_downloadfile_response request isfile use_xsendfile file_path base_dir =
        DlResp.serveFile (posixJoin base_dir np) ∨
       build_downloadfile_response request isfile use_xsendfile file_path base_dir =
        DlResp.xsendfile (posixJoin base_dir np))) := by
  have hbd : build_downloadfile_response request isfile use_xsendfile file_path base_dir =
      (if reconstructPath (normalizedPath file_path) ≠ [] ∧
          normalizedPath file_path ≠ reconstructPath (normalizedPath file_path) then
        DlResp.redirect (reconstructPath (normalizedPath file_path))
      else if ¬ isfile (posixJoin base_dir (reconstructPath (normalizedPath file_path))) then
        DlResp.notFound (build_not_found_response request)
      else if ¬ use_xsendfile then
        DlResp.serveFile (posixJoin base_dir (reconstructPath (normalizedPath file_path)))
      else
        DlResp.xsendfile (posixJoin base_dir (reconstructPath (normalizedPath file_path)))) := rfl
  rw [hbd]
  set p := normalizedPath file_path with hp
  set np := reconstructPath p with hnp
  by_cases h1 : np ≠ [] ∧ p ≠ np
  · rw [if_pos h1]
    exact Or.inl ⟨np, rfl⟩
  · rw [if_neg h1]
    have hsan : sanitizedRel np := by
      rcases not_and_or.1 h1 with h | h
      · have hne : np = [] := not_not.1 h
        rw [hne]
        exact sanitizedRel_nil
      · have hpe : p = np := not_not.1 h
        have hnb : '\\' ∉ np := by
          rw [hnp]
          exact reconstructPath_no_backslash p
        have hpnb : '\\' ∉ p := by
          rw [hpe]
          exact hnb
        rw [hnp]
        exact reconstructPath_sanitized p hpnb
    by_cases h2 : ¬ isfile (posixJoin base_dir np)
    · rw [if_pos h2]
      refine Or.inr (Or.inl ⟨build_not_found_response request, rfl, ?_⟩)
      intro resp hresp
      exact build_response_status request 404 _ ERROR_FORMATTERS none resp hresp
    · rw [if_neg h2]
      by_cases h3 : ¬ use_xsendfile
      · rw [if_pos h3]
        exact Or.inr (Or.inr ⟨np, hsan, Or.inl rfl⟩)
      · rw [if_neg h3]
        exact Or.inr (Or.inr ⟨np, hsan, Or.inr rfl⟩)

theorem intercStr_cons_eq (k : Str) (ks : List Str) :
    intercStr (k :: ks) = k ++ slashPieces ks := by
  induction ks generalizing k with
  | nil => simp [intercStr, slashPieces]
  | cons k2 ks2 ih =>
    show k ++ '/' :: intercStr (k2 :: ks2) = k ++ slashPieces (k2 :: ks2)
    rw [ih k2]
    simp [slashPieces]

theorem getLast?_mem (l : Str) (a : Char) (h : l.getLast? = some a) : a ∈ l := by
  rw [eq_dropLast_append_of_getLast l a h]
  simp

theorem getLast?_append_ne_nil (x y : Str) (hy : y ≠ []) :
    (x ++ y).getLast? = y.getLast? := by
  induction x with
  | nil => simp
  | cons c cs ih =>
    rcases List.exists_cons_of_ne_nil (fun h => hy (List.append_eq_nil.1 h).2 : cs ++ y ≠ []) with
      ⟨d, ds, hds⟩
    rw [List.cons_append, hds, List.getLast?_cons_cons, ← hds, ih]

theorem reconstructStep_kept (acc part : Str) (hslash : '/' ∉ part) (hbs : '\\' ∉ part)
    (hkeep : ¬(part = ['.'] ∨ part = ['.', '.'])) (haccbs : '\\' ∉ acc) :
    reconstructStep acc part = posixJoin acc part := by
  show (if (posixSplit (posixSplitdrive part).2).2 = ['.'] ∨
        (posixSplit (posixSplitdrive part).2).2 = ['.', '.'] then acc
     else replaceBackslash (posixJoin acc (posixSplit (posixSplitdrive part).2).2)) =
      posixJoin acc part
  simp only [posixSplitdrive, posixSplit_of_no_slash part hslash]
  rw [if_neg hkeep]
  exact replaceBackslash_id _ (posixJoin_no_backslash acc part haccbs hbs)

theorem reconstructStep_dropped (acc part : Str) (hslash : '/' ∉ part)
    (hdrop : part = ['.'] ∨ part = ['.', '.']) :
    reconstructStep acc part = acc := by
  show (if (posixSplit (posixSplitdrive part).2).2 = ['.'] ∨
        (posixSplit (posixSplitdrive part).2).2 = ['.', '.'] then acc
     else replaceBackslash (posixJoin acc (posixSplit (posixSplitdrive part).2).2)) = acc
  simp only [posixSplitdrive, posixSplit_of_no_slash part hslash]
  rw [if_pos hdrop]

theorem fold_reconstruct_append (parts : List Str) :
    ∀ acc : Str, acc ≠ [] → acc.getLast? ≠ some '/' → '\\' ∉ acc →
    (∀ p ∈ parts, '/' ∉ p ∧ '\\' ∉ p ∧ p ≠ []) →
    parts.foldl reconstructStep acc = acc ++ slashPieces (parts.filter discardKeep) := by
  induction parts with
  | nil =>
    intro acc _ _ _ _
    simp [slashPieces]
  | cons part rest ih =>
    intro acc hne hlast hbs hmem
    obtain ⟨hp1, hp2, hp3⟩ := hmem part (List.mem_cons_self part rest)
    have hrest : ∀ p ∈ rest, '/' ∉ p ∧ '\\' ∉ p ∧ p ≠ [] :=
      fun p hp => hmem p (List.mem_cons_of_mem part hp)
    rw [List.foldl_cons]
    by_cases hkeep : part = ['.'] ∨ part = ['.', '.']
    · rw [reconstructStep_dropped acc part hp1 hkeep]
      have hfilter : (part :: rest).filter discardKeep = rest.filter discardKeep := by
        simp [List.filter, discardKeep, if_pos hkeep]
      rw [hfilter]
      exact ih acc hne hlast hbs hrest
    · rw [reconstructStep_kept acc part hp1 hp2 hkeep hbs]
      have hjoin : posixJoin acc part = acc ++ '/' :: part := by
        unfold posixJoin
        rw [if_neg (posixJoin_not_abs acc part hp1),
            if_neg (by
              intro hor
              rcases hor with h | h
              · exact hne h
              · exact hlast h)]
      rw [hjoin]
      have hlast2 : (acc ++ '/' :: part).getLast? ≠ some '/' := by
        rw [show acc ++ '/' :: part = (acc ++ ['/']) ++ part from by simp,
            getLast?_append_ne_nil (acc ++ ['/']) part hp3]
        intro hcontra
        exact hp1 (getLast?_mem part '/' hcontra)
      have hbs2 : '\\' ∉ acc ++ '/' :: part := by
        intro h
        rcases List.mem_append.1 h with h | h
        · exact hbs h
        · rcases List.mem_cons.1 h with h | h
          · exact absurd h (by decide)
          · exact hp2 h
      have hne2 : acc ++ '/' :: part ≠ [] := by simp
      rw [ih (acc ++ '/' :: part) hne2 hlast2 hbs2 hrest]
      have hfilter : (part :: rest).filter discardKeep = part :: rest.filter discardKeep := by
        simp [List.filter, discardKeep, if_neg hkeep]
      rw [hfilter]
      simp [slashPieces]

theorem fold_reconstruct_nil (parts : List Str)
    (hmem : ∀ p ∈ parts, '/' ∉ p ∧ '\\' ∉ p ∧ p ≠ []) :
    parts.foldl reconstructStep [] = intercStr (parts.filter discardKeep) := by
  induction parts with
  | nil => simp [intercStr]
  | cons part rest ih =>
    obtain ⟨hp1, hp2, hp3⟩ := hmem part (List.mem_cons_self part rest)
    have hrest : ∀ p ∈ rest, '/' ∉ p ∧ '\\' ∉ p ∧ p ≠ [] :=
      fun p hp => hmem p (List.mem_cons_of_mem part hp)
    rw [List.foldl_cons]
    by_cases hkeep : part = ['.'] ∨ part = ['.', '.']
    · rw [reconstructStep_dropped [] part hp1 hkeep]
      have hfilter : (part :: rest).filter discardKeep = rest.filter discardKeep := by
        simp [List.filter, discardKeep, if_pos hkeep]
      rw [hfilter]
      exact ih hrest
    · rw [reconstructStep_kept [] part hp1 hp2 hkeep (by simp)]
      have hjoin : posixJoin [] part = part := by
        unfold posixJoin
        rw [if_neg (posixJoin_not_abs [] part hp1), if_pos (Or.inl rfl), List.nil_append]
      rw [hjoin]
      have hlastp : part.getLast? ≠ some '/' := by
        intro hcontra
        exact hp1 (getLast?_mem part '/' hcontra)
      rw [fold_reconstruct_append rest part hp3 hlastp hp2 hrest]
      have hfilter : (part :: rest).filter discardKeep = part :: rest.filter discardKeep := by
        simp [List.filter, discardKeep, if_neg hkeep]
      rw [hfilter, intercStr_cons_eq]

/-- The reconstruction loop is a strict discard of the `.` and `..` pieces
of its (well-formed) input - it never cancels a kept piece. -/
theorem reconstructPath_discard (path : Str)
    (h : ∀ p ∈ splitChar '/' path, p ≠ [] ∧ '\\' ∉ p) :
    reconstructPath path = intercStr ((splitChar '/' path).filter discardKeep) := by
  unfold reconstructPath
  exact fold_reconstruct_nil (splitChar '/' path)
    (fun p hp => ⟨splitChar_mem_no_sep '/' path p hp, (h p hp).2, (h p hp).1⟩)

/-- C3 (amended): `build_downloadfile_response` first normalizes the
decoded path with POSIX `normpath` (which does resolve `..` against a
previous segment) and strips leading slashes; the reconstruction loop then
drops the remaining `.` and `..` segments entirely, never cancelling a kept
segment; a 302 redirect to the reconstructed path is returned whenever the
reconstructed path is nonempty and differs from the normalized input (and
never otherwise); for input `a/./b/../c` the normalized result is `a/c`. -/
theorem C3_discard_normalization_redirect (request : Request') (isfile : Str → Bool)
    (use_xsendfile : Bool) (file_path base_dir : Str) :
    (reconstructPath (normalizedPath file_path) ≠ [] ∧
       normalizedPath file_path ≠ reconstructPath (normalizedPath file_path) →
     build_downloadfile_response request isfile use_xsendfile file_path base_dir =
       DlResp.redirect (reconstructPath (normalizedPath file_path))) ∧
    (reconstructPath (normalizedPath file_path) = [] ∨
       normalizedPath file_path = reconstructPath (normalizedPath file_path) →
     ∀ loc, build_downloadfile_response request isfile use_xsendfile file_path base_dir ≠
       DlResp.redirect loc) ∧
    ((∀ p ∈ splitChar '/' (normalizedPath file_path), p ≠ [] ∧ '\\' ∉ p) →
     reconstructPath (normalizedPath file_path) =
       intercStr ((splitChar '/' (normalizedPath file_path)).filter discardKeep)) ∧
    normalizedPath (s ("a/./b/../c")) = s ("a/c") := by
  have hbd : build_downloadfile_response request isfile use_xsendfile file_path base_dir =
      (if reconstructPath (normalizedPath file_path) ≠ [] ∧
          normalizedPath file_path ≠ reconstructPath (normalizedPath file_path) then
        DlResp.redirect (reconstructPath (normalizedPath file_path))
      else if ¬ isfile (posixJoin base_dir (reconstructPath (normalizedPath file_path))) then
        DlResp.notFound (build_not_found_response request)
      else if ¬ use_xsendfile then
        DlResp.serveFile (posixJoin base_dir (reconstructPath (normalizedPath file_path)))
      else
        DlResp.xsendfile (posixJoin base_dir (reconstructPath (normalizedPath file_path)))) := rfl
  refine ⟨?_, ?_, reconstructPath_discard (normalizedPath file_path), by decide⟩
  · intro hcond
    rw [hbd, if_pos hcond]
  · intro hcond loc
    have hneg : ¬ (reconstructPath (normalizedPath file_path) ≠ [] ∧
        normalizedPath file_path ≠ reconstructPath (normalizedPath file_path)) := by
      rcases hcond with h | h
      · exact fun hcontra => hcontra.1 h
      · exact fun hcontra => hcontra.2 h
    rw [hbd, if_neg hneg]
    by_cases h2 : ¬ isfile (posixJoin base_dir (reconstructPath (normalizedPath file_path)))
    · rw [if_pos h2]
      intro heq
      exact DlResp.noConfusion heq
    · rw [if_neg h2]
      by_cases h3 : ¬ use_xsendfile
      · rw [if_pos h3]
        intro heq
        exact DlResp.noConfusion heq
      · rw [if_neg h3]
        intro heq
        exact DlResp.noConfusion heq

/-- C3 witness: for input `../a` the reconstructed path `a` is nonempty and
differs from the normalized `../a`, and the response is the 302 redirect to
`a`; the loop is a strict discard there; `a/./b/../c` normalizes to `a/c`. -/
theorem C3_discard_normalization_redirect_witness :
    build_downloadfile_response requestNone (fun _ => false) false (s ("../a")) (s ("base")) =
      DlResp.redirect (s ("a")) ∧
    reconstructPath (normalizedPath (s ("../a"))) =
      intercStr ((splitChar '/' (normalizedPath (s ("../a")))).filter discardKeep) ∧
    normalizedPath (s ("a/./b/../c")) = s ("a/c") := by
  have thm := C3_discard_normalization_redirect requestNone (fun _ => false) false
    (s ("../a")) (s ("base"))
  refine ⟨?_, thm.2.2.1 (by decide), thm.2.2.2⟩
  have h := thm.1 (by decide)
  have hval : reconstructPath (normalizedPath (s ("../a"))) = s ("a") := by decide
  rw [hval] at h
  exact h

/-- C3 counterexample: for input `..` the reconstructed path (empty)
differs from the normalized input `..`, yet the function does not redirect
(the claim's "redirect whenever it differs" lacks the nonemptiness
condition); with no file present the result is the 404 branch. -/
theorem C3_counterexample_dotdot :
    normalizedPath (s ("..")) ≠ reconstructPath (normalizedPath (s (".."))) ∧
    isRedirect (build_downloadfile_response requestNone (fun _ => false) false
      (s ("..")) (s ("base"))) = false := by
  constructor
  · decide
  · rfl

/-- C2 counterexample: registering a caller formatter under the built-in key
`text/plain; charset=utf-8` does not make it the one applied — the merged
table maps that key to the built-in `get_plain_text_error_response`
(because `formatters.update(ERROR_FORMATTERS)` lets the built-ins win), and
the built 400 response renders the message `boom`, not the caller
formatter's `CUSTOM`. -/
theorem C2_counterexample_merge_direction :
    assocLookup (s ("text/plain; charset=utf-8"))
      (dictUpdate [(s ("text/plain; charset=utf-8"), customFormatter)] ERROR_FORMATTERS) =
      some get_plain_text_error_response ∧
    (build_error_response reqPlain 400 (s ("boom"))
      (some [(s ("text/plain; charset=utf-8"), customFormatter)]) none PyVal.none none).2 =
      Except.ok ⟨Body.text (s ("boom")), 400, s ("text/plain; charset=utf-8"), []⟩ ∧
    customFormatter reqPlain (s ("text/plain; charset=utf-8")) 400
      [(s ("error_msg"), PyVal.str (s ("boom"))), (s ("details"), PyVal.none)] =
      Body.text (s ("CUSTOM")) ∧
    Body.text (s ("boom")) ≠ Body.text (s ("CUSTOM")) := by
  refine ⟨rfl, rfl, rfl, ?_⟩
  intro h
  have h2 := congrArg bodyTextOf h
  revert h2
  decide

/-- C2 (amended): with a non-`None` `extra_formats`, the formatter table is
`extra_formats.copy()` updated with `ERROR_FORMATTERS`, i.e. the built-in
set is merged over the caller's: every built-in content-type key resolves
to the built-in formatter, and the caller-supplied render functions apply
exactly to the keys absent from the built-in table; the response is built
with that merged table. -/
theorem C2_merge_builtin_over_extra (extra : List (Str × Formatter)) :
    assocLookup (s ("application/json; charset=utf-8")) (dictUpdate extra ERROR_FORMATTERS) =
      some get_json_error_response ∧
    assocLookup (s ("application/xml; charset=utf-8")) (dictUpdate extra ERROR_FORMATTERS) =
      some get_xml_error_response ∧
    assocLookup (s ("text/plain; charset=utf-8")) (dictUpdate extra ERROR_FORMATTERS) =
      some get_plain_text_error_response ∧
    assocLookup [] (dictUpdate extra ERROR_FORMATTERS) = some get_plain_text_error_response ∧
    (∀ k, k ≠ s ("application/json; charset=utf-8") → k ≠ s ("application/xml; charset=utf-8") →
      k ≠ s ("text/plain; charset=utf-8") → k ≠ [] →
      assocLookup k (dictUpdate extra ERROR_FORMATTERS) = assocLookup k extra) ∧
    (∀ request status_code error_msg headers details context,
      (build_error_response request status_code error_msg (some extra) headers details context).2 =
        build_response request status_code
          (build_error_response request status_code error_msg (some extra) headers details context).1
          (dictUpdate extra ERROR_FORMATTERS) headers) := by
  have hupd : dictUpdate extra ERROR_FORMATTERS =
      assocSet (assocSet (assocSet (assocSet extra
        (s ("application/json; charset=utf-8")) get_json_error_response)
        (s ("application/xml; charset=utf-8")) get_xml_error_response)
        (s ("text/plain; charset=utf-8")) get_plain_text_error_response)
        [] get_plain_text_error_response := rfl
  rw [hupd]
  refine ⟨?_, ?_, ?_, ?_, ?_, fun _ _ _ _ _ _ => rfl⟩
  · rw [assocLookup_assocSet_other _ _ _ _ (by decide),
        assocLookup_assocSet_other _ _ _ _ (by decide),
        assocLookup_assocSet_other _ _ _ _ (by decide),
        assocLookup_assocSet_self]
  · rw [assocLookup_assocSet_other _ _ _ _ (by decide),
        assocLookup_assocSet_other _ _ _ _ (by decide),
        assocLookup_assocSet_self]
  · rw [assocLookup_assocSet_other _ _ _ _ (by decide),
        assocLookup_assocSet_self]
  · rw [assocLookup_assocSet_self]
  · intro k hk1 hk2 hk3 hk4
    rw [assocLookup_assocSet_other _ _ _ _ hk4,
        assocLookup_assocSet_other _ _ _ _ hk3,
        assocLookup_assocSet_other _ _ _ _ hk2,
        assocLookup_assocSet_other _ _ _ _ hk1]

/-- C2 witness: concrete instance of the merged-table behaviour, with a key
present in both tables resolving to the built-in formatter and a fresh key
resolving to the caller's. -/
theorem C2_merge_builtin_over_extra_witness :
    assocLookup (s ("text/plain; charset=utf-8"))
      (dictUpdate [(s ("text/plain; charset=utf-8"), customFormatter),
        (s ("text/html"), customFormatter)] ERROR_FORMATTERS) =
      some get_plain_text_error_response ∧
    assocLookup (s ("text/html"))
      (dictUpdate [(s ("text/plain; charset=utf-8"), customFormatter),
        (s ("text/html"), customFormatter)] ERROR_FORMATTERS) =
      some customFormatter := by
  have thm := C2_merge_builtin_over_extra
    [(s ("text/plain; charset=utf-8"), customFormatter), (s ("text/html"), customFormatter)]
  refine ⟨thm.2.2.1, ?_⟩
  rw [thm.2.2.2.2.1 (s ("text/html")) (by decide) (by decide) (by decide) (by decide)]
  rfl

/-! ## C10: in-place mutation of the caller's context dictionary -/

/-- C10: `build_error_response` updates the caller's context dictionary in
place: afterwards `error_msg` holds the message and `details` the details
value (overwriting any previous values under those keys), every other key
is untouched, and the response is built from that same mutated dictionary
(passed on to the selected formatter by `build_response`). -/
theorem C10_context_mutated_in_place (request : Request') (status_code : Nat)
    (error_msg : Str) (extra_formats : Option (List (Str × Formatter)))
    (headers : Option (List (Str × Str))) (details : PyVal) (context : Context) :
    assocLookup (s ("error_msg"))
      (build_error_response request status_code error_msg extra_formats headers details
        (some context)).1 = some (PyVal.str error_msg) ∧
    assocLookup (s ("details"))
      (build_error_response request status_code error_msg extra_formats headers details
        (some context)).1 = some details ∧
    (∀ k, k ≠ s ("error_msg") → k ≠ s ("details") →
      assocLookup k (build_error_response request status_code error_msg extra_formats headers
        details (some context)).1 = assocLookup k context) ∧
    (build_error_response request status_code error_msg extra_formats headers details
      (some context)).2 =
      build_response request status_code
        (build_error_response request status_code error_msg extra_formats headers details
          (some context)).1
        (match extra_formats with
         | some ef => dictUpdate ef ERROR_FORMATTERS
         | none => ERROR_FORMATTERS) headers := by
  have hctx : (build_error_response request status_code error_msg extra_formats headers details
      (some context)).1 =
      assocSet (assocSet context (s ("error_msg")) (PyVal.str error_msg))
        (s ("details")) details := rfl
  refine ⟨?_, ?_, ?_, rfl⟩
  · rw [hctx, assocLookup_assocSet_other _ _ _ _ (by decide), assocLookup_assocSet_self]
  · rw [hctx, assocLookup_assocSet_self]
  · intro k hk1 hk2
    rw [hctx, assocLookup_assocSet_other _ _ _ _ hk2, assocLookup_assocSet_other _ _ _ _ hk1]

/-- C10 witness: a concrete context keeps its unrelated key, has its old
`error_msg` overwritten, and gets the new `details`. -/
theorem C10_context_mutated_in_place_witness :
    assocLookup (s ("error_msg"))
      (build_error_response reqPlain 400 (s ("new")) none none (PyVal.str (s ("d")))
        (some [(s ("other"), PyVal.nat 7), (s ("error_msg"), PyVal.str (s ("old")))])).1 =
      some (PyVal.str (s ("new"))) ∧
    assocLookup (s ("details"))
      (build_error_response reqPlain 400 (s ("new")) none none (PyVal.str (s ("d")))
        (some [(s ("other"), PyVal.nat 7), (s ("error_msg"), PyVal.str (s ("old")))])).1 =
      some (PyVal.str (s ("d"))) ∧
    assocLookup (s ("other"))
      (build_error_response reqPlain 400 (s ("new")) none none (PyVal.str (s ("d")))
        (some [(s ("other"), PyVal.nat 7), (s ("error_msg"), PyVal.str (s ("old")))])).1 =
      assocLookup (s ("other")) [(s ("other"), PyVal.nat 7), (s ("error_msg"), PyVal.str (s ("old")))] := by
  have thm := C10_context_mutated_in_place reqPlain 400 (s ("new")) none none
    (PyVal.str (s ("d"))) [(s ("other"), PyVal.nat 7), (s ("error_msg"), PyVal.str (s ("old")))]
  exact ⟨thm.1, thm.2.1, thm.2.2.1 (s ("other")) (by decide) (by decide)⟩

/-! ## C8: the JSON error formatter -/

/-- C8: with `details` `None` (stored or absent) the JSON formatter's body
is exactly `{"description": error_msg}` — no `details` key; with a
non-`None` `details` the body additionally carries `details` unchanged. -/
theorem C8_json_error_formatter (request : Request') (mimetype : Str) (status_code : Nat)
    (msg : Str) (context : Context)
    (hmsg : ctxGet context (s ("error_msg")) = PyVal.str msg) :
    (ctxGet context (s ("details")) = PyVal.none →
      get_json_error_response request mimetype status_code context =
        Body.json (PyVal.dict [(s ("description"), PyVal.str msg)]) ∧
      assocLookup (s ("details")) [(s ("description"), PyVal.str msg)] = none) ∧
    (∀ d, ctxGet context (s ("details")) = d → d ≠ PyVal.none →
      get_json_error_response request mimetype status_code context =
        Body.json (PyVal.dict
          [(s ("description"), PyVal.str msg), (s ("details"), d)])) := by
  constructor
  · intro hdet
    constructor
    · simp only [get_json_error_response, hmsg, hdet]
      rfl
    · rfl
  · intro d hdet hne
    simp only [get_json_error_response, hmsg, hdet]
    cases d with
    | none => exact absurd rfl hne
    | str t => rfl
    | nat n => rfl
    | list xs => rfl
    | dict kvs => rfl

/-- C8 witness: a context without a `details` key renders to the single-key
object, a context with string details carries it under `details`. -/
theorem C8_json_error_formatter_witness :
    get_json_error_response reqPlain (s ("application/json; charset=utf-8")) 400
      [(s ("error_msg"), PyVal.str (s ("m")))] =
      Body.json (PyVal.dict [(s ("description"), PyVal.str (s ("m")))]) ∧
    get_json_error_response reqPlain (s ("application/json; charset=utf-8")) 400
      [(s ("error_msg"), PyVal.str (s ("m"))), (s ("details"), PyVal.str (s ("dd")))] =
      Body.json (PyVal.dict [(s ("description"), PyVal.str (s ("m"))),
        (s ("details"), PyVal.str (s ("dd")))]) := by
  constructor
  · exact ((C8_json_error_formatter reqPlain (s ("application/json; charset=utf-8")) 400
      (s ("m")) [(s ("error_msg"), PyVal.str (s ("m")))] rfl).1 rfl).1
  · exact (C8_json_error_formatter reqPlain (s ("application/json; charset=utf-8")) 400
      (s ("m")) [(s ("error_msg"), PyVal.str (s ("m"))), (s ("details"), PyVal.str (s ("dd")))]
      rfl).2 (PyVal.str (s ("dd"))) rfl (fun h => PyVal.noConfusion h)

/-! ## C9: the XML error formatter -/

theorem mapM_str_elems (ts : List Str) :
    (ts.map PyVal.str).mapM (fun x =>
      match x with
      | PyVal.str t => some (XmlNode.elem (s ("element")) (some t) [])
      | _ => none) = some (ts.map (fun t => XmlNode.elem (s ("element")) (some t) [])) := by
  induction ts with
  | nil => rfl
  | cons t rest ih =>
    rw [List.map_cons, List.mapM_cons, ih]
    rfl

/-- C9 (amended): the XML body is `<error>` with a `<description>` child
and a `<details>` child exactly when details is not `None`; string details
become text, string values become text of an element named by their key,
sequence values become repeated `<element>` children — and a nested-mapping
value, being iterable, takes the same sequence branch: it becomes repeated
`<element>` children whose text is each nested key (the code's branch that
would create children named after the nested keys is unreachable for
mappings). -/
theorem C9_xml_error_formatter (request : Request') (mimetype : Str) (status_code : Nat)
    (msg : Str) (context : Context)
    (hmsg : ctxGet context (s ("error_msg")) = PyVal.str msg) :
    (ctxGet context (s ("details")) = PyVal.none →
      get_xml_error_response request mimetype status_code context =
        Body.xml (XmlNode.elem (s ("error")) none
          [XmlNode.elem (s ("description")) (some msg) []])) ∧
    (∀ t, ctxGet context (s ("details")) = PyVal.str t →
      get_xml_error_response request mimetype status_code context =
        Body.xml (XmlNode.elem (s ("error")) none
          [XmlNode.elem (s ("description")) (some msg) [],
           XmlNode.elem (s ("details")) (some t) []])) ∧
    (∀ kvs cs, ctxGet context (s ("details")) = PyVal.dict kvs →
      kvs.mapM (fun kv => xml_details_child kv.1 kv.2) = some cs →
      get_xml_error_response request mimetype status_code context =
        Body.xml (XmlNode.elem (s ("error")) none
          [XmlNode.elem (s ("description")) (some msg) [],
           XmlNode.elem (s ("details")) none cs])) ∧
    (∀ k t, xml_details_child k (PyVal.str t) = some (XmlNode.elem k (some t) [])) ∧
    (∀ k (ts : List Str), xml_details_child k (PyVal.list (ts.map PyVal.str)) =
      some (XmlNode.elem k none (ts.map (fun t => XmlNode.elem (s ("element")) (some t) [])))) ∧
    (∀ k (kvs2 : List (Str × PyVal)), xml_details_child k (PyVal.dict kvs2) =
      some (XmlNode.elem k none
        (kvs2.map (fun kv => XmlNode.elem (s ("element")) (some kv.1) [])))) := by
  refine ⟨?_, ?_, ?_, fun k t => rfl, ?_, fun k kvs2 => rfl⟩
  · intro hdet
    simp only [get_xml_error_response, hmsg, hdet]
    rfl
  · intro t hdet
    simp only [get_xml_error_response, hmsg, hdet]
    rfl
  · intro kvs cs hdet hmap
    simp only [get_xml_error_response, hmsg, hdet, hmap]
    rfl
  · intro k ts
    simp only [xml_details_child, mapM_str_elems ts]
    rfl

/-- C9 counterexample: for `details = {'k': {'a': '1'}}` the code renders
`<k><element>a</element></k>` (the dict is caught by the iterable branch,
which iterates its keys), not the claimed `<k><a>1</a></k>`. -/
theorem C9_counterexample_nested_mapping :
    xml_details_child (s ("k")) (PyVal.dict [(s ("a"), PyVal.str (s ("1")))]) =
      some (XmlNode.elem (s ("k")) none
        [XmlNode.elem (s ("element")) (some (s ("a"))) []]) ∧
    spec_nested_mapping_child (s ("k")) [(s ("a"), s ("1"))] =
      XmlNode.elem (s ("k")) none [XmlNode.elem (s ("a")) (some (s ("1"))) []] ∧
    (XmlNode.elem (s ("element")) (some (s ("a"))) []) ≠
      (XmlNode.elem (s ("a")) (some (s ("1"))) []) := by
  refine ⟨rfl, rfl, ?_⟩
  intro h
  have h2 := congrArg xmlTag h
  revert h2
  decide

/-- C9 witness: a concrete context whose mapping details render to the
`<details>` element with one child per key. -/
theorem C9_xml_error_formatter_witness :
    get_xml_error_response reqPlain (s ("application/xml; charset=utf-8")) 400
      [(s ("error_msg"), PyVal.str (s ("m"))),
       (s ("details"), PyVal.dict [(s ("k"), PyVal.str (s ("v")))])] =
      Body.xml (XmlNode.elem (s ("error")) none
        [XmlNode.elem (s ("description")) (some (s ("m"))) [],
         XmlNode.elem (s ("details")) none
           [XmlNode.elem (s ("k")) (some (s ("v"))) []]]) :=
  (C9_xml_error_formatter reqPlain (s ("application/xml; charset=utf-8")) 400 (s ("m"))
    [(s ("error_msg"), PyVal.str (s ("m"))),
     (s ("details"), PyVal.dict [(s ("k"), PyVal.str (s ("v")))])] rfl).2.2.1
    [(s ("k"), PyVal.str (s ("v")))] [XmlNode.elem (s ("k")) (some (s ("v"))) []] rfl rfl

theorem xml_details_child_str_list (k : Str) (ts : List Str) :
    xml_details_child k (PyVal.list (ts.map PyVal.str)) =
      some (XmlNode.elem k none
        (ts.map (fun t => XmlNode.elem (s ("element")) (some t) []))) := by
  simp only [xml_details_child, mapM_str_elems ts]
  rfl

theorem contains_false_of_not_mem (l : List Str) (a : Str) (h : a ∉ l) :
    l.contains a = false := by
  cases hc : l.contains a
  · rfl
  · exact absurd (List.elem_iff.mp hc) h

theorem contains_true_of_mem (l : List Str) (a : Str) (h : a ∈ l) :
    l.contains a = true := List.elem_iff.mpr h

/-! ## C4: `produces` and the 406 payload -/

/-- C4 (amended): when negotiation between `mime_types` and the request's
`Accept` header fails, the `produces` wrapper returns the 406 error
response without invoking the wrapped handler; the JSON and XML renderings
of that response's context carry a `supported_mime_types` details entry
listing `mime_types`, while the plain-text rendering is the bare message
only. -/
theorem C4_produces_not_acceptable (mime_types : List Str) (isAsync : Bool)
    (handlerA handlerB : Request' → Except Str Resp) (request : Request')
    (h : best_match mime_types (request.accept.getD (s ("*/*"))) = []) :
    produces_wrapper mime_types isAsync handlerA request =
      produces_wrapper mime_types isAsync handlerB request ∧
    produces_wrapper mime_types isAsync handlerA request =
      (build_error_response (setBestResponseMimetype request []) 406 msg406 none none
        (details406 mime_types) none).2 ∧
    (∀ r, produces_wrapper mime_types isAsync handlerA request = Except.ok r →
      r.status = 406) ∧
    get_json_error_response request (s ("application/json; charset=utf-8")) 406
      (ctx406 mime_types) =
      Body.json (PyVal.dict [(s ("description"), PyVal.str msg406),
        (s ("details"), details406 mime_types)]) ∧
    get_xml_error_response request (s ("application/xml; charset=utf-8")) 406
      (ctx406 mime_types) =
      Body.xml (XmlNode.elem (s ("error")) none
        [XmlNode.elem (s ("description")) (some msg406) [],
         XmlNode.elem (s ("details")) none
           [XmlNode.elem (s ("supported_mime_types")) none
             (mime_types.map (fun m => XmlNode.elem (s ("element")) (some m) []))]]) ∧
    get_plain_text_error_response request (s ("text/plain; charset=utf-8")) 406
      (ctx406 mime_types) = Body.text msg406 := by
  have hw : ∀ hh : Request' → Except Str Resp,
      produces_wrapper mime_types isAsync hh request =
      (if (setBestResponseMimetype request
            (best_match mime_types (request.accept.getD (s ("*/*"))))).best_response_mimetype =
          some [] then
        (build_error_response
          (setBestResponseMimetype request
            (best_match mime_types (request.accept.getD (s ("*/*"))))) 406 msg406 none none
          (details406 mime_types) none).2
      else if isAsync then
        await_coroutine hh (setBestResponseMimetype request
          (best_match mime_types (request.accept.getD (s ("*/*")))))
      else
        hh (setBestResponseMimetype request
          (best_match mime_types (request.accept.getD (s ("*/*")))))) := fun hh => rfl
  have herr : produces_wrapper mime_types isAsync handlerA request =
      (build_error_response (setBestResponseMimetype request []) 406 msg406 none none
        (details406 mime_types) none).2 := by
    rw [hw handlerA, h]
    rfl
  refine ⟨?_, herr, ?_, rfl, ?_, rfl⟩
  · rw [hw handlerA, hw handlerB, h,
        if_pos (show (setBestResponseMimetype request []).best_response_mimetype = some []
          from rfl),
        if_pos (show (setBestResponseMimetype request []).best_response_mimetype = some []
          from rfl)]
  · intro r hr
    rw [herr] at hr
    exact build_response_status (setBestResponseMimetype request []) 406 _ ERROR_FORMATTERS
      none r hr
  · have hmap : ([(s ("supported_mime_types"), PyVal.list (mime_types.map PyVal.str))].mapM
        (fun kv => xml_details_child kv.1 kv.2)) =
        some [XmlNode.elem (s ("supported_mime_types")) none
          (mime_types.map (fun m => XmlNode.elem (s ("element")) (some m) []))] := by
      rw [List.mapM_cons]
      simp only [xml_details_child_str_list]
      rfl
    have hstep : get_xml_error_response request (s ("application/xml; charset=utf-8")) 406
        (ctx406 mime_types) =
        (match ([(s ("supported_mime_types"), PyVal.list (mime_types.map PyVal.str))].mapM
            (fun kv => xml_details_child kv.1 kv.2)) with
          | some children =>
            Body.xml (XmlNode.elem (s ("error")) none
              [XmlNode.elem (s ("description")) (some msg406) [],
               XmlNode.elem (s ("details")) none children])
          | none => Body.xmlError) := rfl
    rw [hstep, hmap]

/-- C4 witness: `produces(["text/html"])` against `Accept: application/json`
returns the 406 error response, whose plain-text rendering is the bare
message. -/
theorem C4_produces_not_acceptable_witness :
    produces_wrapper [s ("text/html")] false handlerStub reqJson =
      (build_error_response (setBestResponseMimetype reqJson []) 406 msg406 none none
        (details406 [s ("text/html")]) none).2 ∧
    get_plain_text_error_response reqJson (s ("text/plain; charset=utf-8")) 406
      (ctx406 [s ("text/html")]) = Body.text msg406 := by
  have thm := C4_produces_not_acceptable [s ("text/html")] false handlerStub handlerStub
    reqJson (by decide)
  exact ⟨thm.2.1, thm.2.2.2.2.2⟩

/-- C4 counterexample: the claim requires the `supported_mime_types` entry
in each of the JSON, XML *and plain-text* renderings, but the plain-text
formatter renders only the message, which does not even mention
`supported_mime_types`. -/
theorem C4_counterexample_plain_text :
    best_match [s ("text/html")] (s ("application/json")) = [] ∧
    get_plain_text_error_response reqJson (s ("text/plain; charset=utf-8")) 406
      (ctx406 [s ("text/html")]) = Body.text msg406 ∧
    containsSub (s ("supported_mime_types")) msg406 = false := by
  refine ⟨by decide, rfl, by decide⟩

/-! ## C5: `consumes` and the content-type guard -/

/-- C5: the `consumes` wrapper reads the request's content type with its
parameters stripped, attaches it to the request; when it is not one of
`mime_types` it returns the 415 "Unsupported request media type" response
without invoking the handler, otherwise it delegates to the handler with
the attached type. -/
theorem C5_consumes_media_type_guard (mime_types : List Str) (isAsync : Bool)
    (handlerA handlerB : Request' → Except Str Resp) (request : Request') :
    (¬ mime_types.contains ((get_content_type request).1) = true →
      consumes_wrapper mime_types isAsync handlerA request =
        consumes_wrapper mime_types isAsync handlerB request ∧
      consumes_wrapper mime_types isAsync handlerA request =
        (build_error_response (setMimetype request ((get_content_type request).1)) 415 msg415
          none none PyVal.none none).2 ∧
      (∀ r, consumes_wrapper mime_types isAsync handlerA request = Except.ok r →
        r.status = 415)) ∧
    (mime_types.contains ((get_content_type request).1) = true →
      consumes_wrapper mime_types isAsync handlerA request =
        handlerA (setMimetype request ((get_content_type request).1))) := by
  have hw : ∀ hh : Request' → Except Str Resp,
      consumes_wrapper mime_types isAsync hh request =
      (if ¬ mime_types.contains ((get_content_type request).1) = true then
        (build_error_response (setMimetype request ((get_content_type request).1)) 415 msg415
          none none PyVal.none none).2
      else if isAsync then
        await_coroutine hh (setMimetype request ((get_content_type request).1))
      else hh (setMimetype request ((get_content_type request).1))) := fun hh => rfl
  constructor
  · intro h
    have herr : consumes_wrapper mime_types isAsync handlerA request =
        (build_error_response (setMimetype request ((get_content_type request).1)) 415 msg415
          none none PyVal.none none).2 := by
      rw [hw handlerA, if_pos h]
    refine ⟨?_, herr, ?_⟩
    · rw [hw handlerA, hw handlerB, if_pos h, if_pos h]
    · intro r hr
      rw [herr] at hr
      exact build_response_status (setMimetype request ((get_content_type request).1)) 415 _
        ERROR_FORMATTERS none r hr
  · intro h
    rw [hw handlerA, if_neg (not_not_intro h)]
    cases isAsync
    · rfl
    · rfl

/-- C5 witness: a `text/plain; charset=utf-8` request against
`consumes(["application/json"])` draws the 415 response; against
`consumes(["text/plain"])` the handler runs with the parameter-free type
attached. -/
theorem C5_consumes_media_type_guard_witness :
    consumes_wrapper [s ("application/json")] false handlerStub
      ⟨none, none, some (s ("text/plain; charset=utf-8")), none, none⟩ =
      (build_error_response
        (setMimetype ⟨none, none, some (s ("text/plain; charset=utf-8")), none, none⟩
          (s ("text/plain"))) 415 msg415 none none PyVal.none none).2 ∧
    consumes_wrapper [s ("text/plain")] false handlerStub
      ⟨none, none, some (s ("text/plain; charset=utf-8")), none, none⟩ =
      handlerStub (setMimetype ⟨none, none, some (s ("text/plain; charset=utf-8")), none, none⟩
        (s ("text/plain"))) := by
  constructor
  · exact ((C5_consumes_media_type_guard [s ("application/json")] false handlerStub handlerStub
      ⟨none, none, some (s ("text/plain; charset=utf-8")), none, none⟩).1 (by decide)).2.1
  · exact (C5_consumes_media_type_guard [s ("text/plain")] false handlerStub handlerStub
      ⟨none, none, some (s ("text/plain; charset=utf-8")), none, none⟩).2 (by decide)

/-! ## C6: the `authentication_required` call-time guard -/

/-- C6: when the authenticated-user argument is absent or `None`, the
wrapper returns the 401 "Authentication Required" response without
invoking the handler; otherwise it invokes the handler (awaiting it when
async, calling it directly when sync — both paths yield the handler's
result) and returns that result. -/
theorem C6_authentication_required_call (isAsync : Bool)
    (handlerA handlerB : Kwargs → Except Str Resp) (kwargs : Kwargs) :
    (kwargsUser kwargs = none →
      authentication_required_wrapper isAsync handlerA kwargs =
        authentication_required_wrapper isAsync handlerB kwargs ∧
      authentication_required_wrapper isAsync handlerA kwargs =
        (build_error_response ((kwargsRequest kwargs).getD requestNone) 401
          (s ("Authentication Required")) none none PyVal.none none).2 ∧
      (∀ r, authentication_required_wrapper isAsync handlerA kwargs = Except.ok r →
        r.status = 401)) ∧
    (∀ u, kwargsUser kwargs = some u →
      authentication_required_wrapper isAsync handlerA kwargs = handlerA kwargs) := by
  have hw : ∀ hh : Kwargs → Except Str Resp,
      authentication_required_wrapper isAsync hh kwargs =
      (match kwargsUser kwargs with
       | none =>
         (build_error_response ((kwargsRequest kwargs).getD requestNone) 401
           (s ("Authentication Required")) none none PyVal.none none).2
       | some _ => if isAsync then await_coroutine hh kwargs else hh kwargs) := fun hh => rfl
  constructor
  · intro h
    have herr : authentication_required_wrapper isAsync handlerA kwargs =
        (build_error_response ((kwargsRequest kwargs).getD requestNone) 401
          (s ("Authentication Required")) none none PyVal.none none).2 := by
      rw [hw handlerA, h]
    refine ⟨?_, herr, ?_⟩
    · rw [hw handlerA, hw handlerB, h]
    · intro r hr
      rw [herr] at hr
      exact build_response_status ((kwargsRequest kwargs).getD requestNone) 401 _
        ERROR_FORMATTERS none r hr
  · intro u h
    rw [hw handlerA, h]
    cases isAsync
    · rfl
    · rfl

/-- C6 witness: no user argument at all yields the 401 response; a present
user delegates to the handler. -/
theorem C6_authentication_required_call_witness :
    authentication_required_wrapper false kwHandlerStub ⟨none, none, some (some reqPlain), none⟩ =
      (build_error_response reqPlain 401 (s ("Authentication Required")) none none PyVal.none
        none).2 ∧
    authentication_required_wrapper false kwHandlerStub
      ⟨some (some ⟨1⟩), none, some (some reqPlain), none⟩ =
      kwHandlerStub ⟨some (some ⟨1⟩), none, some (some reqPlain), none⟩ := by
  constructor
  · exact ((C6_authentication_required_call false kwHandlerStub kwHandlerStub
      ⟨none, none, some (some reqPlain), none⟩).1 rfl).2.1
  · exact (C6_authentication_required_call false kwHandlerStub kwHandlerStub
      ⟨some (some ⟨1⟩), none, some (some reqPlain), none⟩).2 ⟨1⟩ rfl

/-! ## C7: wrap-time signature checking -/

theorem cdp_step_missing (hp : List Str) (p : Str) (rest : List Str)
    (h1 : p ∉ hp) (h2 : ('_' :: p) ∉ hp) :
    check_decorator_params hp (p :: rest) =
      Except.error (s ("The handler must have a ") ++ p ++ s (" parameter")) := by
  unfold check_decorator_params
  rw [contains_false_of_not_mem hp p h1, contains_false_of_not_mem hp ('_' :: p) h2]
  rfl

theorem cdp_step_present (hp : List Str) (p : Str) (rest : List Str)
    (h : p ∈ hp ∨ ('_' :: p) ∈ hp) :
    check_decorator_params hp (p :: rest) = check_decorator_params hp rest := by
  have heq : check_decorator_params hp (p :: rest) =
      (if ¬ (hp.contains p || hp.contains ('_' :: p)) = true then
        Except.error (s ("The handler must have a ") ++ p ++ s (" parameter"))
      else check_decorator_params hp rest) := rfl
  rw [heq]
  rcases h with h | h
  · rw [contains_true_of_mem hp p h, if_neg (by simp)]
  · rw [contains_true_of_mem hp ('_' :: p) h, if_neg (by simp)]

/-- C7: applying `authentication_required` to a handler whose signature
lacks a `user`/`_user` parameter or a `request`/`_request` parameter fails
at wrap time with a `ValueError`, before any request is handled; a handler
declaring both is wrapped without error.  `produces` and `consumes` apply
the same wrap-time check for the `request` parameter. -/
theorem C7_wrap_time_signature_check (handlerParams : List Str) (isAsync : Bool)
    (handler : Kwargs → Except Str Resp) (rhandler : Request' → Except Str Resp)
    (mime_types : List Str) :
    ((s ("user") ∉ handlerParams ∧ s ("_user") ∉ handlerParams) ∨
     (s ("request") ∉ handlerParams ∧ s ("_request") ∉ handlerParams) →
      ∃ e, authentication_required handlerParams isAsync handler = Except.error e) ∧
    ((s ("user") ∈ handlerParams ∨ s ("_user") ∈ handlerParams) →
     (s ("request") ∈ handlerParams ∨ s ("_request") ∈ handlerParams) →
      authentication_required handlerParams isAsync handler =
        Except.ok (authentication_required_wrapper isAsync handler)) ∧
    (s ("request") ∉ handlerParams ∧ s ("_request") ∉ handlerParams →
      (∃ e, produces mime_types handlerParams isAsync rhandler = Except.error e) ∧
      (∃ e, consumes mime_types handlerParams isAsync rhandler = Except.error e)) ∧
    ((s ("request") ∈ handlerParams ∨ s ("_request") ∈ handlerParams) →
      produces mime_types handlerParams isAsync rhandler =
        Except.ok (produces_wrapper mime_types isAsync rhandler) ∧
      consumes mime_types handlerParams isAsync rhandler =
        Except.ok (consumes_wrapper mime_types isAsync rhandler)) := by
  have husr : s ("_user") = '_' :: s ("user") := rfl
  have hreq : s ("_request") = '_' :: s ("request") := rfl
  refine ⟨?_, ?_, ?_, ?_⟩
  · intro h
    rcases h with ⟨h1, h2⟩ | ⟨h1, h2⟩
    · refine ⟨s ("The handler must have a ") ++ s ("user") ++ s (" parameter"), ?_⟩
      unfold authentication_required
      rw [cdp_step_missing handlerParams (s ("user")) [s ("request")] h1 (husr ▸ h2)]
    · by_cases hu : s ("user") ∈ handlerParams ∨ ('_' :: s ("user")) ∈ handlerParams
      · refine ⟨s ("The handler must have a ") ++ s ("request") ++ s (" parameter"), ?_⟩
        unfold authentication_required
        rw [cdp_step_present handlerParams (s ("user")) [s ("request")] hu,
          cdp_step_missing handlerParams (s ("request")) [] h1 (hreq ▸ h2)]
      · rcases not_or.1 hu with ⟨hu1, hu2⟩
        refine ⟨s ("The handler must have a ") ++ s ("user") ++ s (" parameter"), ?_⟩
        unfold authentication_required
        rw [cdp_step_missing handlerParams (s ("user")) [s ("request")] hu1 hu2]
  · intro hu hr
    unfold authentication_required
    rw [cdp_step_present handlerParams (s ("user")) [s ("request")] (husr ▸ hu),
      cdp_step_present handlerParams (s ("request")) [] (hreq ▸ hr)]
    rfl
  · intro ⟨h1, h2⟩
    constructor
    · refine ⟨s ("The handler must have a ") ++ s ("request") ++ s (" parameter"), ?_⟩
      unfold produces
      rw [cdp_step_missing handlerParams (s ("request")) [] h1 (hreq ▸ h2)]
    · refine ⟨s ("The handler must have a ") ++ s ("request") ++ s (" parameter"), ?_⟩
      unfold consumes
      rw [cdp_step_missing handlerParams (s ("request")) [] h1 (hreq ▸ h2)]
  · intro hr
    constructor
    · unfold produces
      rw [cdp_step_present handlerParams (s ("request")) [] (hreq ▸ hr)]
      rfl
    · unfold consumes
      rw [cdp_step_present handlerParams (s ("request")) [] (hreq ▸ hr)]
      rfl

/-- C7 witness: a signature with only `request` fails `authentication_required`
at wrap time; `['user', 'request']` wraps fine; a signature without
`request` fails `produces`/`consumes` at wrap time; with it they wrap. -/
theorem C7_wrap_time_signature_check_witness :
    (∃ e, authentication_required [s ("request")] false kwHandlerStub = Except.error e) ∧
    authentication_required [s ("user"), s ("request")] false kwHandlerStub =
      Except.ok (authentication_required_wrapper false kwHandlerStub) ∧
    (∃ e, produces [s ("text/html")] [s ("user")] false handlerStub = Except.error e) ∧
    produces [s ("text/html")] [s ("request")] false handlerStub =
      Except.ok (produces_wrapper [s ("text/html")] false handlerStub) ∧
    consumes [s ("text/html")] [s ("request")] false handlerStub =
      Except.ok (consumes_wrapper [s ("text/html")] false handlerStub) := by
  refine ⟨?_, ?_, ?_, ?_, ?_⟩
  · exact (C7_wrap_time_signature_check [s ("request")] false kwHandlerStub handlerStub
      [s ("text/html")]).1 (Or.inl (by constructor <;> decide))
  · exact (C7_wrap_time_signature_check [s ("user"), s ("request")] false kwHandlerStub
      handlerStub [s ("text/html")]).2.1 (Or.inl (by decide)) (Or.inl (by decide))
  · exact ((C7_wrap_time_signature_check [s ("user")] false kwHandlerStub handlerStub
      [s ("text/html")]).2.2.1 (by constructor <;> decide)).1
  · exact ((C7_wrap_time_signature_check [s ("request")] false kwHandlerStub handlerStub
      [s ("text/html")]).2.2.2 (Or.inl (by decide))).1
  · exact ((C7_wrap_time_signature_check [s ("request")] false kwHandlerStub handlerStub
      [s ("text/html")]).2.2.2 (Or.inl (by decide))).2
